import Mathlib

/-!
Verification development for the MCP_Server_Core job-orchestration core.

The definitions below are a shallow embedding of the Python sources:
the job data model and server operations from mcp_core/mcp_server.py and
mcp_core/jobs/__init__.py, and the artifact registry from
mcp_core/artifacts/artifact_registry.py and artifact_schema.py.
Python dicts (which preserve insertion order) are modelled as association
lists, uuid/clock values are passed in as explicit parameters, and the
atomic blocks between await points of the async coordinator are modelled
as steps of an explicit transition relation.
-/

namespace MCPCore

/-! Association-list primitives modelling Python dict operations. -/

/-- Dict lookup: value stored under the first occurrence of key k. -/
def lookupKV {K V : Type} [DecidableEq K] : List (K × V) → K → Option V
  | [], _ => none
  | (k1, v) :: rest, k => if k1 = k then some v else lookupKV rest k

/-- Dict assignment d[k] = v: update in place if the key exists, else append
(Python dicts keep insertion order). -/
def setKV {K V : Type} [DecidableEq K] : List (K × V) → K → V → List (K × V)
  | [], k, v => [(k, v)]
  | (k1, v1) :: rest, k, v =>
    if k1 = k then (k, v) :: rest else (k1, v1) :: setKV rest k v

/-- Dict deletion del d[k]: drops the first entry with key k. -/
def eraseKV {K V : Type} [DecidableEq K] : List (K × V) → K → List (K × V)
  | [], _ => []
  | (k1, v1) :: rest, k => if k1 = k then rest else (k1, v1) :: eraseKV rest k

/-- In-place mutation of the object stored under key k (Python aliasing:
mutating a looked-up object mutates the stored one). -/
def modifyKV {K V : Type} [DecidableEq K] : List (K × V) → K → (V → V) → List (K × V)
  | [], _, _ => []
  | (k1, v) :: rest, k, f =>
    if k1 = k then (k1, f v) :: modifyKV rest k f
    else (k1, v) :: modifyKV rest k f

/-- Python list.remove: removes the first occurrence of an element. -/
def removeFirst {α : Type} [DecidableEq α] : List α → α → List α
  | [], _ => []
  | x :: xs, y => if x = y then xs else x :: removeFirst xs y

/-- Python truthiness of an Optional[str]: None and the empty string are
falsy; used by the index guards in the artifact registry. -/
def truthyStr : Option String → Option String
  | none => none
  | some s => if s = "" then none else some s

/-! Job data model, from mcp_core/jobs/__init__.py. -/

/-- JobStatus enum. -/
inductive JobStatus where
  | pending
  | running
  | completed
  | failed
  | cancelled
deriving DecidableEq, Repr

/-- JobType enum. -/
inductive JobType where
  | ml_experiment
  | backtest
  | generic
deriving DecidableEq, Repr

/-- The string value of a JobType enum member. -/
def jobTypeName : JobType → String
  | .ml_experiment => "ml_experiment"
  | .backtest => "backtest"
  | .generic => "generic"

/-- Opaque structured key/value data (payloads, metadata, result fields). -/
abbrev JsonMap := List (String × String)

/-- ArtifactType enum, from mcp_core/artifacts/artifact_schema.py. -/
inductive ArtifactType where
  | model
  | plot
  | report
  | log
  | metrics
  | data
  | config
  | other
deriving DecidableEq, Repr

/-- ArtifactReference: a directed dependency or reverse edge. -/
structure ArtifactRef where
  artifact_id : String
  artifact_type : ArtifactType
  reference_type : String := "dependency"
  metadata : JsonMap := []
deriving DecidableEq, Repr

/-- One artifact descriptor inside a remote service's result body; every
field is optional because the Python code reads them with dict.get
defaults in _register_service_artifacts. -/
structure ArtifactDescriptor where
  name : Option String := none
  type : Option ArtifactType := none
  storage_location : Option String := none
  description : Option String := none
  service_id : Option String := none
  dependencies : Option (List ArtifactRef) := none
  size_bytes : Option Nat := none
  checksum : Option String := none
  tags : Option (List String) := none
  metadata : Option JsonMap := none
deriving DecidableEq, Repr

/-- The body of a successful remote execution response: an opaque result
map that may carry an artifacts list (result.get with default []). -/
structure ResultBody where
  fields : JsonMap := []
  artifacts : List ArtifactDescriptor := []
deriving DecidableEq, Repr

/-- Job record (pydantic model Job); uuid and clock values are explicit. -/
structure Job where
  id : String
  type : JobType
  payload : JsonMap
  status : JobStatus := .pending
  created_at : Nat
  started_at : Option Nat := none
  completed_at : Option Nat := none
  result : Option ResultBody := none
  error : Option String := none
  logs : List String := []
  metadata : JsonMap := []
deriving DecidableEq, Repr

/-- JobSubmission request model. -/
structure JobSubmission where
  type : JobType
  payload : JsonMap
  metadata : Option JsonMap := none
deriving DecidableEq, Repr

/-- Terminal-status check used by cancel_job
(status in [COMPLETED, FAILED, CANCELLED]). -/
def isTerminal : JobStatus → Bool
  | .completed => true
  | .failed => true
  | .cancelled => true
  | _ => false

/-! Artifact data model, from mcp_core/artifacts/artifact_schema.py. -/

/-- ArtifactMetadata pydantic model; id and created_at are uuid/clock
values passed in explicitly. -/
structure ArtifactMeta where
  id : String
  name : String
  type : ArtifactType
  description : Option String := none
  created_at : Nat
  created_by : Option String := none
  size_bytes : Option Nat := none
  checksum : Option String := none
  tags : List String := []
  metadata : JsonMap := []
deriving DecidableEq, Repr

/-- Artifact: metadata plus storage info, forward dependency edges and the
system-maintained reverse-edge list. -/
structure Artifact where
  metadata : ArtifactMeta
  storage_location : String
  service_id : Option String := none
  job_id : Option String := none
  dependencies : List ArtifactRef := []
  referenced_by : List ArtifactRef := []
deriving DecidableEq, Repr

/-- ArtifactRegistration request model. -/
structure ArtifactRegistration where
  name : String
  type : ArtifactType
  storage_location : String
  description : Option String := none
  service_id : Option String := none
  job_id : Option String := none
  dependencies : List ArtifactRef := []
  size_bytes : Option Nat := none
  checksum : Option String := none
  tags : List String := []
  metadata : JsonMap := []
deriving DecidableEq, Repr

/-! Artifact registry state and operations, translated line by line from
mcp_core/artifacts/artifact_registry.py.  The four dicts of the
ArtifactRegistry class become four association lists. -/

/-- ArtifactRegistry instance state: the primary store plus the three
secondary indices. -/
structure ArtifactRegistry where
  artifacts : List (String × Artifact) := []
  artifacts_by_job : List (String × List String) := []
  artifacts_by_service : List (String × List String) := []
  artifacts_by_type : List (ArtifactType × List String) := []
deriving DecidableEq, Repr

/-- An empty registry, as built by ArtifactRegistry.__init__. -/
def emptyRegistry : ArtifactRegistry := {}

/-- Index insertion pattern used by _update_indexes for each of the three
indices: create the bucket if missing, then append the id if absent. -/
def addToBucket {K : Type} [DecidableEq K]
    (idx : List (K × List String)) (k : K) (aid : String) :
    List (K × List String) :=
  match lookupKV idx k with
  | none => setKV idx k [aid]
  | some ids => if aid ∈ ids then idx else setKV idx k (ids ++ [aid])

/-- Index removal pattern used by _remove_from_indexes: if the bucket
exists and contains the id, list.remove its first occurrence. -/
def removeFromBucket {K : Type} [DecidableEq K]
    (idx : List (K × List String)) (k : K) (aid : String) :
    List (K × List String) :=
  match lookupKV idx k with
  | none => idx
  | some ids => if aid ∈ ids then setKV idx k (removeFirst ids aid) else idx

/-- ArtifactRegistry._update_indexes: add the artifact id to the job index
(when job_id is truthy), the service index (when service_id is truthy) and
the type index. -/
def update_indexes (reg : ArtifactRegistry) (a : Artifact) : ArtifactRegistry :=
  let aid := a.metadata.id
  let reg1 :=
    match truthyStr a.job_id with
    | some j => { reg with artifacts_by_job := addToBucket reg.artifacts_by_job j aid }
    | none => reg
  let reg2 :=
    match truthyStr a.service_id with
    | some sv => { reg1 with artifacts_by_service := addToBucket reg1.artifacts_by_service sv aid }
    | none => reg1
  { reg2 with artifacts_by_type := addToBucket reg2.artifacts_by_type a.metadata.type aid }

/-- ArtifactRegistry._remove_from_indexes. -/
def remove_from_indexes (reg : ArtifactRegistry) (a : Artifact) : ArtifactRegistry :=
  let aid := a.metadata.id
  let reg1 :=
    match truthyStr a.job_id with
    | some j => { reg with artifacts_by_job := removeFromBucket reg.artifacts_by_job j aid }
    | none => reg
  let reg2 :=
    match truthyStr a.service_id with
    | some sv => { reg1 with artifacts_by_service := removeFromBucket reg1.artifacts_by_service sv aid }
    | none => reg1
  { reg2 with artifacts_by_type := removeFromBucket reg2.artifacts_by_type a.metadata.type aid }

/-- The reverse-edge entry appended by _update_dependency_references for a
forward edge dep of the artifact with id sid and type styp. -/
def mkRevRef (sid : String) (styp : ArtifactType) (dep : ArtifactRef) : ArtifactRef :=
  { artifact_id := sid
    artifact_type := styp
    reference_type := "referenced_by"
    metadata := [("reference_type", dep.reference_type)] }

/-- Loop body of _update_dependency_references: for each declared forward
edge whose target currently exists, append a reverse edge on the target. -/
def updateDepRefsList (sid : String) (styp : ArtifactType)
    (arts : List (String × Artifact)) : List ArtifactRef → List (String × Artifact)
  | [] => arts
  | dep :: rest =>
    let arts1 :=
      match lookupKV arts dep.artifact_id with
      | none => arts
      | some _ =>
        modifyKV arts dep.artifact_id
          (fun d => { d with referenced_by := d.referenced_by ++ [mkRevRef sid styp dep] })
    updateDepRefsList sid styp arts1 rest

/-- ArtifactRegistry._update_dependency_references. -/
def update_dependency_references (reg : ArtifactRegistry) (a : Artifact) : ArtifactRegistry :=
  { reg with artifacts := updateDepRefsList a.metadata.id a.metadata.type reg.artifacts a.dependencies }

/-- Loop body of _remove_dependency_references: for each declared forward
edge whose target currently exists, filter this artifact's id out of the
target's reverse-edge list. -/
def removeDepRefsList (sid : String)
    (arts : List (String × Artifact)) : List ArtifactRef → List (String × Artifact)
  | [] => arts
  | dep :: rest =>
    let arts1 :=
      match lookupKV arts dep.artifact_id with
      | none => arts
      | some _ =>
        modifyKV arts dep.artifact_id
          (fun d => { d with referenced_by := d.referenced_by.filter (fun r => r.artifact_id != sid) })
    removeDepRefsList sid arts1 rest

/-- ArtifactRegistry._remove_dependency_references. -/
def remove_dependency_references (reg : ArtifactRegistry) (a : Artifact) : ArtifactRegistry :=
  { reg with artifacts := removeDepRefsList a.metadata.id reg.artifacts a.dependencies }

/-- The Artifact object built by register_artifact from a registration
(its ArtifactMetadata and Artifact constructor calls). -/
def regArtifact (r : ArtifactRegistration) (newId : String) (now : Nat) : Artifact :=
  { metadata :=
      { id := newId, name := r.name, type := r.type, description := r.description,
        created_at := now, created_by := r.job_id, size_bytes := r.size_bytes,
        checksum := r.checksum, tags := r.tags, metadata := r.metadata },
    storage_location := r.storage_location,
    service_id := r.service_id, job_id := r.job_id,
    dependencies := r.dependencies, referenced_by := [] }

/-- ArtifactRegistry.register_artifact.  newId and now stand for the
uuid4() and datetime.utcnow() defaults of the pydantic model.  The pair
returned is (raised error or returned id, registry state afterwards); on
the duplicate-id ValueError the state is the unchanged input. -/
def register_artifact (reg : ArtifactRegistry) (r : ArtifactRegistration)
    (newId : String) (now : Nat) : Except String String × ArtifactRegistry :=
  let artifact := regArtifact r newId now
  if (lookupKV reg.artifacts artifact.metadata.id).isSome then
    (.error ("Artifact with ID " ++ artifact.metadata.id ++ " already exists"), reg)
  else
    let reg1 := { reg with artifacts := setKV reg.artifacts artifact.metadata.id artifact }
    let reg2 := update_indexes reg1 artifact
    let reg3 := update_dependency_references reg2 artifact
    (.ok artifact.metadata.id, reg3)

/-- ArtifactRegistry.get_artifact. -/
def get_artifact (reg : ArtifactRegistry) (aid : String) : Option Artifact :=
  lookupKV reg.artifacts aid

/-- ArtifactRegistry.get_artifact_dependencies: resolve each forward edge
to a live record, silently dropping dangling ones; [] when the artifact
itself is unknown. -/
def get_artifact_dependencies (reg : ArtifactRegistry) (aid : String) : List Artifact :=
  match get_artifact reg aid with
  | none => []
  | some a => a.dependencies.filterMap (fun dep => get_artifact reg dep.artifact_id)

/-- ArtifactRegistry.get_artifact_references: resolve each reverse edge to
a live record, silently dropping dangling ones; [] when the artifact
itself is unknown. -/
def get_artifact_references (reg : ArtifactRegistry) (aid : String) : List Artifact :=
  match get_artifact reg aid with
  | none => []
  | some a => a.referenced_by.filterMap (fun r => get_artifact reg r.artifact_id)

/-- ArtifactRegistry.delete_artifact: (returned bool, registry state
afterwards).  The record is removed from the indices and its dependency
targets' reverse-edge lists before the primary-store deletion, exactly in
source order. -/
def delete_artifact (reg : ArtifactRegistry) (aid : String) : Bool × ArtifactRegistry :=
  match lookupKV reg.artifacts aid with
  | none => (false, reg)
  | some a =>
    let reg1 := remove_from_indexes reg a
    let reg2 := remove_dependency_references reg1 a
    let reg3 := { reg2 with artifacts := eraseKV reg2.artifacts aid }
    (true, reg3)

/-- Modelled from the spec (refinement view for claim C9 only): the claim
and spec say getReferences on a deleted id "errors not-found"; this
definition follows those words so the source behaviour can be compared
against it. -/
def getReferencesSpecView (reg : ArtifactRegistry) (aid : String) :
    Except String (List Artifact) :=
  match get_artifact reg aid with
  | none => .error "not-found"
  | some a => .ok (a.referenced_by.filterMap (fun r => get_artifact reg r.artifact_id))

/-! Server operations, from mcp_core/mcp_server.py, and the agent
registry lookup from mcp_core/agents/base_agent.py.  The MCPServer
instance state is its jobs dict plus the running_tasks dict (modelled as
the list of job ids it is keyed by).  The class-level AgentRegistry
dispatch table is modelled as the list of job types that currently have a
registered agent. -/

/-- MCPServer instance state. -/
structure ServerState where
  jobs : List (String × Job) := []
  running_tasks : List String := []
deriving DecidableEq, Repr

/-- AgentRegistry.can_handle_job: job.type in cls._agents. -/
def can_handle_job (agents : List JobType) (job : Job) : Bool :=
  agents.contains job.type

/-- The Job record built by MCPServer.submit_job from a submission;
newId and now stand for the uuid4() and utcnow() pydantic defaults.
job_submission.metadata or {} maps None to the empty map. -/
def jobFromSubmission (sub : JobSubmission) (newId : String) (now : Nat) : Job :=
  { id := newId, type := sub.type, payload := sub.payload, status := .pending,
    created_at := now, metadata := sub.metadata.getD [] }

/-- MCPServer.submit_job: build the record, reject with a ValueError when
no agent can handle the type (before any store mutation), otherwise store
the job and key a new execution task by its id.  Returns (raised error or
returned job id, server state afterwards). -/
def submit_job (agents : List JobType) (s : ServerState) (sub : JobSubmission)
    (newId : String) (now : Nat) : Except String String × ServerState :=
  let job := jobFromSubmission sub newId now
  if ¬ can_handle_job agents job then
    (.error ("No external service available for job type: " ++ jobTypeName job.type), s)
  else
    (.ok job.id,
      { s with jobs := setKV s.jobs job.id job,
               running_tasks := s.running_tasks ++ [job.id] })

/-- MCPServer.cancel_job: false when the job is unknown or already
terminal (state untouched); otherwise cancel and drop the task, mark the
record Cancelled and stamp completed_at.  Returns (returned bool, server
state afterwards). -/
def cancel_job (s : ServerState) (jid : String) (now : Nat) : Bool × ServerState :=
  match lookupKV s.jobs jid with
  | none => (false, s)
  | some job =>
    if isTerminal job.status then (false, s)
    else
      let s1 := { s with running_tasks := removeFirst s.running_tasks jid }
      let job2 := { job with status := .cancelled, completed_at := some now }
      (true, { s1 with jobs := setKV s1.jobs jid job2 })

/-- Filter stage of MCPServer.list_jobs: list(self.jobs.values()),
then the status filter when one is provided (every JobStatus enum value
is a non-empty string, hence truthy). -/
def jobsFiltered (s : ServerState) (status_filter : Option JobStatus) : List Job :=
  let jobs := s.jobs.map (fun p => p.2)
  match status_filter with
  | some st => jobs.filter (fun j => j.status == st)
  | none => jobs

/-- Descending creation-time order used by jobs.sort(key=created_at,
reverse=True). -/
def createdGe (a b : Job) : Prop := b.created_at ≤ a.created_at

instance : DecidableRel createdGe := fun a b => Nat.decLe b.created_at a.created_at

instance : IsTotal Job createdGe := ⟨fun a b => Nat.le_total b.created_at a.created_at⟩

instance : IsTrans Job createdGe := ⟨fun _ _ _ h1 h2 => Nat.le_trans h2 h1⟩

/-- Sort stage of MCPServer.list_jobs (newest first).  The Python sort is
stable; the spec claims nothing about the relative order of jobs with
equal created_at, so insertion sort is used as the model. -/
def sortJobsDesc (l : List Job) : List Job := List.insertionSort createdGe l

/-- MCPServer.list_jobs for a possibly supplied non-negative limit.
Mirrors source order: filter, sort descending, then the limit slice
guarded by Python truthiness (if limit: ... so a limit of 0 is skipped,
like None).  Negative limits are outside this model's domain. -/
def list_jobs (s : ServerState) (status_filter : Option JobStatus)
    (limit : Option Nat) : List Job :=
  let sorted := sortJobsDesc (jobsFiltered s status_filter)
  match limit with
  | some n => if n ≠ 0 then sorted.take n else sorted
  | none => sorted

/-- Outcome of the one HTTP POST made by _execute_job_via_service: either
a response (status code, parsed json body, raw text) or an
aiohttp.ClientError transport failure. -/
inductive HttpResult where
  | response (status : Nat) (jsonBody : ResultBody) (textBody : String)
  | clientError (msg : String)
deriving DecidableEq, Repr

/-- MCPServer._execute_job_via_service: only a status-200 response is a
success whose json body is returned; any other status or a transport
error raises with the textual detail. -/
def execute_job_via_service (service_url : String) (h : HttpResult) :
    Except String ResultBody :=
  match h with
  | .response st body text =>
    if st = 200 then .ok body
    else .error ("Service returned status " ++ toString st ++ ": " ++ text)
  | .clientError e =>
    .error ("Failed to communicate with service " ++ service_url ++ ": " ++ e)

/-- How _execute_job finalizes the job record once the service call has
returned or raised: success sets Completed with the result, any raised
exception is caught and sets Failed with str(e) in error. -/
def finalize_after_service (job : Job) (out : Except String ResultBody) (t : Nat) : Job :=
  match out with
  | .ok r => { job with status := .completed, completed_at := some t, result := some r }
  | .error e => { job with status := .failed, completed_at := some t, error := some e }

/-- Registration built from one artifact descriptor by
_register_service_artifacts (dict.get defaults; job_id is always
overwritten with the calling job's id). -/
def descriptorToRegistration (jobId : String) (d : ArtifactDescriptor) :
    ArtifactRegistration :=
  { name := d.name.getD ("artifact_" ++ jobId),
    type := d.type.getD .other,
    storage_location := d.storage_location.getD "",
    description := d.description,
    service_id := d.service_id,
    job_id := some jobId,
    dependencies := d.dependencies.getD [],
    size_bytes := d.size_bytes,
    checksum := d.checksum,
    tags := d.tags.getD [],
    metadata := d.metadata.getD [] }

/-- MCPServer._register_service_artifacts: register each descriptor of
the result's artifacts list, catching and logging any per-artifact
failure (register_artifact already returns the unchanged registry on its
ValueError, so the caught exception simply continues the loop).  freshIds
supplies one uuid per descriptor. -/
def register_service_artifacts (reg : ArtifactRegistry) (jobId : String) :
    List ArtifactDescriptor → List String → Nat → ArtifactRegistry
  | [], _, _ => reg
  | _, [], _ => reg
  | d :: rest, i :: is, now =>
    let reg1 := (register_artifact reg (descriptorToRegistration jobId d) i now).2
    register_service_artifacts reg1 jobId rest is now

/-- The success block of MCPServer._execute_job (lines 176-182): mark the
job Completed with the service result, then best-effort register the
declared artifacts. -/
def complete_job_with_result (job : Job) (reg : ArtifactRegistry) (r : ResultBody)
    (t : Nat) (freshIds : List String) : Job × ArtifactRegistry :=
  let job1 := { job with status := .completed, completed_at := some t, result := some r }
  (job1, register_service_artifacts reg job1.id r.artifacts freshIds t)

/-! Per-job execution transition system.  Each async function in the
source runs atomically between await points; the only true suspension
point of _execute_job is the HTTP call inside _execute_job_via_service
(the artifact-registry coroutines never yield to the event loop), so the
lifetime of one submitted job decomposes into the atomic steps below.
cancel_job is callable from the API at any scheduling point; a task
cancelled before its coroutine first runs never executes its body, and a
task cancelled while suspended at the HTTP await runs the
except-CancelledError handler. -/

/-- Where the job's execution task currently is. -/
inductive UnitPhase where
  | notStarted
  | awaitingService
  | cancelSignalled
  | finished
deriving DecidableEq, Repr

/-- One submitted job's record together with its task's phase and whether
its id is still in running_tasks. -/
structure JobCell where
  job : Job
  phase : UnitPhase
  inTasks : Bool
deriving DecidableEq, Repr

/-- Cell created by submit_job: Pending record, task created, not yet run. -/
def initCell (sub : JobSubmission) (newId : String) (now : Nat) : JobCell :=
  { job := jobFromSubmission sub newId now, phase := .notStarted, inTasks := true }

/-- Atomic steps of one job's lifetime, line-faithful to
MCPServer._execute_job (lines 156-200) and MCPServer.cancel_job
(lines 88-115). -/
inductive JobStep : JobCell → JobCell → Prop where
  /-- Task body starts (lines 163-174 up to the await): set Running and
  started_at, then suspend at the service call. -/
  | startUnit (c : JobCell) (t : Nat) :
      c.phase = .notStarted →
      JobStep c { c with
        job := { c.job with status := .running, started_at := some t },
        phase := .awaitingService }
  /-- Service call returned a result (lines 176-182 and the finally
  block): set Completed, completed_at and result, drop the task.  The
  artifact registrations are atomic with this block and touch only the
  artifact registry, covered separately by complete_job_with_result. -/
  | serviceOk (c : JobCell) (r : ResultBody) (t : Nat) :
      c.phase = .awaitingService →
      JobStep c { c with
        job := { c.job with status := .completed, completed_at := some t, result := some r },
        phase := .finished, inTasks := false }
  /-- Service call (or the url lookup before it) raised (lines 190-195
  and finally): set Failed, completed_at and error, drop the task. -/
  | serviceFail (c : JobCell) (e : String) (t : Nat) :
      c.phase = .awaitingService →
      JobStep c { c with
        job := { c.job with status := .failed, completed_at := some t, error := some e },
        phase := .finished, inTasks := false }
  /-- cancel_job on a non-terminal job: cancel and drop the task, set
  Cancelled and completed_at.  A task cancelled before it first ran never
  executes its body; one cancelled at the service await will run the
  CancelledError handler. -/
  | cancelReq (c : JobCell) (t : Nat) :
      isTerminal c.job.status = false →
      JobStep c { c with
        job := { c.job with status := .cancelled, completed_at := some t },
        phase := if c.phase = .notStarted then .finished else .cancelSignalled,
        inTasks := false }
  /-- The except-CancelledError handler of _execute_job (lines 184-188
  and finally) running after cancel_job signalled the awaiting task:
  set Cancelled (again) and restamp completed_at. -/
  | cancelHandler (c : JobCell) (t : Nat) :
      c.phase = .cancelSignalled →
      JobStep c { c with
        job := { c.job with status := .cancelled, completed_at := some t },
        phase := .finished }

/-- Cells reachable from a given submitted cell. -/
inductive ReachesCell (c0 : JobCell) : JobCell → Prop where
  | refl : ReachesCell c0 c0
  | tail {b c : JobCell} : ReachesCell c0 b → JobStep b c → ReachesCell c0 c

/-- Status transitions the amended claim C2 allows: Pending→Running and
Running→terminal on the execution path, plus the direct
Pending→Cancelled taken when cancel_job arrives before the task first
runs (the repository's own test_cancel_job exercises exactly that). -/
def allowedAmended : JobStatus → JobStatus → Bool
  | .pending, .running => true
  | .pending, .cancelled => true
  | .running, .completed => true
  | .running, .failed => true
  | .running, .cancelled => true
  | _, _ => false

/-- Status transitions claim C2 literally allows: exactly the path
Pending→Running→{Completed, Failed, Cancelled}. -/
def allowedClaimed : JobStatus → JobStatus → Bool
  | .pending, .running => true
  | .running, .completed => true
  | .running, .failed => true
  | .running, .cancelled => true
  | _, _ => false

/-- Invariant tying task phase to record status, and typing the result
and error fields. -/
def CellInv (c : JobCell) : Prop :=
  (c.phase = .notStarted → c.job.status = .pending) ∧
  (c.phase = .awaitingService → c.job.status = .running) ∧
  (c.phase = .cancelSignalled → c.job.status = .cancelled) ∧
  (c.phase = .finished → isTerminal c.job.status = true) ∧
  (c.job.result.isSome = true → c.job.status = .completed) ∧
  (c.job.error.isSome = true → c.job.status = .failed)

/-! Registry reachability: states produced by any sequence of register
and delete operations starting from a fresh registry. -/

/-- One external operation on the artifact registry. -/
inductive RegOp where
  | register (r : ArtifactRegistration) (newId : String) (now : Nat)
  | delete (aid : String)

/-- State after one operation (errors leave the state unchanged). -/
def applyRegOp (reg : ArtifactRegistry) : RegOp → ArtifactRegistry
  | .register r newId now => (register_artifact reg r newId now).2
  | .delete aid => (delete_artifact reg aid).2

/-- State after a whole operation sequence. -/
def runRegOps (ops : List RegOp) : ArtifactRegistry :=
  ops.foldl applyRegOp emptyRegistry

/-- Registry states reachable by some operation sequence. -/
def ReachableReg (reg : ArtifactRegistry) : Prop :=
  ∃ ops, runRegOps ops = reg

/-- Well-formedness invariant of reachable registry states. -/
structure RegWF (reg : ArtifactRegistry) : Prop where
  /-- Primary-store keys are distinct. -/
  nodupKeys : (reg.artifacts.map Prod.fst).Nodup
  /-- Each record is stored under its own id. -/
  keysMatch : ∀ k a, lookupKV reg.artifacts k = some a → a.metadata.id = k
  /-- Every reverse edge names a stored artifact that declares the
  matching forward edge. -/
  refsLive : ∀ k a, lookupKV reg.artifacts k = some a → ∀ r ∈ a.referenced_by,
    ∃ b, lookupKV reg.artifacts r.artifact_id = some b ∧
      ∃ d ∈ b.dependencies, d.artifact_id = k
  /-- Every id in a job-index bucket is stored with that truthy job_id. -/
  idxJob : ∀ j ids, lookupKV reg.artifacts_by_job j = some ids → ∀ i ∈ ids,
    ∃ a, lookupKV reg.artifacts i = some a ∧ truthyStr a.job_id = some j
  /-- Every id in a service-index bucket is stored with that truthy
  service_id. -/
  idxService : ∀ sv ids, lookupKV reg.artifacts_by_service sv = some ids → ∀ i ∈ ids,
    ∃ a, lookupKV reg.artifacts i = some a ∧ truthyStr a.service_id = some sv
  /-- Every id in a type-index bucket is stored with that type. -/
  idxType : ∀ ty ids, lookupKV reg.artifacts_by_type ty = some ids → ∀ i ∈ ids,
    ∃ a, lookupKV reg.artifacts i = some a ∧ a.metadata.type = ty
  /-- Index buckets hold no duplicate ids. -/
  idxJobNodup : ∀ j ids, lookupKV reg.artifacts_by_job j = some ids → ids.Nodup
  idxServiceNodup : ∀ sv ids, lookupKV reg.artifacts_by_service sv = some ids → ids.Nodup
  idxTypeNodup : ∀ ty ids, lookupKV reg.artifacts_by_type ty = some ids → ids.Nodup

/-! Concrete states used by witnesses and counterexamples. -/

/-- A submission of a type with no registered agent. -/
def subW1 : JobSubmission := { type := .backtest, payload := [("strategy", "momentum")] }

/-- A server that already holds one pending job. -/
def stateW1 : ServerState :=
  { jobs := [("j0", jobFromSubmission { type := .ml_experiment, payload := [] } "j0" 0)],
    running_tasks := ["j0"] }

/-- Submission used by the cancellation scenario. -/
def subCex : JobSubmission := { type := .ml_experiment, payload := [("model", "linear")] }

/-- Freshly submitted cell, task not yet run. -/
def cellCex : JobCell := initCell subCex "job-1" 0

/-- The cell after cancel_job hits the still-pending job. -/
def cellCexAfter : JobCell :=
  { cellCex with
    job := { cellCex.job with status := .cancelled, completed_at := some 1 },
    phase := if cellCex.phase = .notStarted then .finished else .cancelSignalled,
    inTasks := false }

/-- The cell after the execution task starts running. -/
def cellStartW : JobCell :=
  { cellCex with
    job := { cellCex.job with status := .running, started_at := some 3 },
    phase := .awaitingService }

/-- A job already in a terminal state. -/
def jobTermW : Job :=
  { id := "jt", type := .generic, payload := [], status := .completed,
    created_at := 0, started_at := some 1, completed_at := some 2,
    result := some { fields := [("x", "1")] } }

/-- A server holding only that terminal job. -/
def stateTermW : ServerState := { jobs := [("jt", jobTermW)] }

/-- A running job about to be finalized. -/
def jobW4 : Job :=
  { id := "j4", type := .generic, payload := [], status := .running,
    created_at := 0, started_at := some 1 }

/-- A service result body. -/
def bodyW : ResultBody := { fields := [("ok", "1")] }

/-- An already-stored artifact whose id the uuid oracle is about to
collide with. -/
def artDup : Artifact :=
  { metadata := { id := "dup", name := "old", type := .data, created_at := 0 },
    storage_location := "s3://old" }

/-- Registry already holding the id dup. -/
def regDup : ArtifactRegistry := { artifacts := [("dup", artDup)] }

/-- A result declaring one artifact descriptor. -/
def resultW5 : ResultBody :=
  { fields := [("score", "9")], artifacts := [{ name := some "out" }] }

/-- A registration request colliding with the stored id. -/
def regSub10 : ArtifactRegistration :=
  { name := "new", type := .other, storage_location := "s3://new" }

/-- Forward edge naming the id A. -/
def depOnA : ArtifactRef := { artifact_id := "A", artifact_type := .data }

/-- Registration of B declaring a dependency on A. -/
def regSubB : ArtifactRegistration :=
  { name := "B", type := .plot, storage_location := "locB", dependencies := [depOnA] }

/-- Registration of A with no dependencies. -/
def regSubA : ArtifactRegistration :=
  { name := "A", type := .data, storage_location := "locA" }

/-- Registry after registering B (dependency on the absent A) and then
registering A itself: the dangling edge is never backfilled. -/
def regC6 : ArtifactRegistry :=
  runRegOps [RegOp.register regSubB "b" 0, RegOp.register regSubA "A" 1]

/-- Registry holding just A. -/
def regW6 : ArtifactRegistry := runRegOps [RegOp.register regSubA "A" 0]

/-- Two jobs with distinct creation times. -/
def jobA7 : Job := { id := "a", type := .generic, payload := [], created_at := 0 }
def jobB7 : Job := { id := "b", type := .generic, payload := [], created_at := 1 }

/-- Server holding both jobs. -/
def stateC7 : ServerState := { jobs := [("a", jobA7), ("b", jobB7)] }

/-- Registration of A carrying a producing job and service. -/
def regSubA8 : ArtifactRegistration :=
  { name := "A", type := .data, storage_location := "la",
    job_id := some "job1", service_id := some "svc1" }

/-- Registration of B depending on A, same producing job. -/
def regSubB8 : ArtifactRegistration :=
  { name := "B", type := .plot, storage_location := "lb",
    job_id := some "job1", dependencies := [depOnA] }

/-- Registry with A then B registered. -/
def regW8 : ArtifactRegistry :=
  runRegOps [RegOp.register regSubA8 "A" 0, RegOp.register regSubB8 "B" 1]

/-- The stored record of A inside regW8, after B's registration appended
its reverse edge. -/
def artA8 : Artifact :=
  { metadata :=
      { id := "A", name := "A", type := .data, created_at := 0,
        created_by := some "job1" },
    storage_location := "la", service_id := some "svc1", job_id := some "job1",
    dependencies := [],
    referenced_by := [mkRevRef "B" .plot depOnA] }

/-- Registry with A registered and then B depending on it. -/
def regW9 : ArtifactRegistry :=
  runRegOps [RegOp.register regSubA "A" 0, RegOp.register regSubB "b" 1]

/-- Registry regW9 after deleting A: b survives with a dangling edge. -/
def regC9 : ArtifactRegistry := (delete_artifact regW9 "A").2

/-! Lemmas about the dict model. -/

theorem lookupKV_isSome_of_mem_keys {K V : Type} [DecidableEq K]
    {l : List (K × V)} {k : K} (h : k ∈ l.map Prod.fst) :
    (lookupKV l k).isSome = true := by
  induction l with
  | nil => simp at h
  | cons p rest ih =>
    cases p with
    | mk k1 v1 =>
      by_cases hk : k1 = k
      · simp [lookupKV, hk]
      · simp only [List.map_cons, List.mem_cons] at h
        rcases h with h | h
        · exact absurd h.symm hk
        · simp [lookupKV, hk, ih h]

theorem mem_keys_of_lookupKV_isSome {K V : Type} [DecidableEq K]
    {l : List (K × V)} {k : K} (h : (lookupKV l k).isSome = true) :
    k ∈ l.map Prod.fst := by
  induction l with
  | nil => simp [lookupKV] at h
  | cons p rest ih =>
    cases p with
    | mk k1 v1 =>
      by_cases hk : k1 = k
      · simp [hk]
      · simp only [lookupKV, hk, if_false] at h
        simp [hk, ih h]

theorem lookupKV_eq_none_of_not_mem_keys {K V : Type} [DecidableEq K]
    {l : List (K × V)} {k : K} (h : k ∉ l.map Prod.fst) :
    lookupKV l k = none := by
  cases hl : lookupKV l k with
  | none => rfl
  | some v =>
    exact absurd (mem_keys_of_lookupKV_isSome (by rw [hl]; rfl)) h

theorem not_mem_keys_of_lookupKV_eq_none {K V : Type} [DecidableEq K]
    {l : List (K × V)} {k : K} (h : lookupKV l k = none) :
    k ∉ l.map Prod.fst := by
  intro hmem
  have := lookupKV_isSome_of_mem_keys hmem
  rw [h] at this
  simp at this

theorem lookupKV_setKV_self {K V : Type} [DecidableEq K]
    (l : List (K × V)) (k : K) (v : V) :
    lookupKV (setKV l k v) k = some v := by
  induction l with
  | nil => simp [setKV, lookupKV]
  | cons p rest ih =>
    cases p with
    | mk k1 v1 =>
      by_cases hk : k1 = k
      · simp [setKV, hk, lookupKV]
      · simp [setKV, hk, lookupKV, ih]

theorem lookupKV_setKV_ne {K V : Type} [DecidableEq K]
    (l : List (K × V)) (k k2 : K) (v : V) (h : k2 ≠ k) :
    lookupKV (setKV l k v) k2 = lookupKV l k2 := by
  have h2 : ¬ k = k2 := fun hh => h hh.symm
  induction l with
  | nil => simp [setKV, lookupKV, h2]
  | cons p rest ih =>
    cases p with
    | mk k1 v1 =>
      by_cases hk : k1 = k
      · subst hk
        simp [setKV, lookupKV, h2]
      · by_cases hk2 : k1 = k2
        · simp [setKV, hk, lookupKV, hk2, h]
        · simp [setKV, hk, lookupKV, hk2, ih]

theorem setKV_eq_append {K V : Type} [DecidableEq K]
    {l : List (K × V)} {k : K} (v : V) (h : lookupKV l k = none) :
    setKV l k v = l ++ [(k, v)] := by
  induction l with
  | nil => simp [setKV]
  | cons p rest ih =>
    cases p with
    | mk k1 v1 =>
      by_cases hk : k1 = k
      · simp [lookupKV, hk] at h
      · simp only [lookupKV, hk, if_false] at h
        simp [setKV, hk, ih h]

theorem eraseKV_sublist {K V : Type} [DecidableEq K]
    (l : List (K × V)) (k : K) : (eraseKV l k).Sublist l := by
  induction l with
  | nil => simp [eraseKV]
  | cons p rest ih =>
    cases p with
    | mk k1 v1 =>
      by_cases hk : k1 = k
      · rw [eraseKV, if_pos hk]
        exact List.sublist_cons_self (k1, v1) rest
      · rw [eraseKV, if_neg hk]
        exact ih.cons₂ (k1, v1)

theorem lookupKV_eraseKV_ne {K V : Type} [DecidableEq K]
    (l : List (K × V)) (k k2 : K) (h : k2 ≠ k) :
    lookupKV (eraseKV l k) k2 = lookupKV l k2 := by
  have h2 : ¬ k = k2 := fun hh => h hh.symm
  induction l with
  | nil => simp [eraseKV]
  | cons p rest ih =>
    cases p with
    | mk k1 v1 =>
      by_cases hk : k1 = k
      · subst hk
        simp [eraseKV, lookupKV, h2]
      · by_cases hk2 : k1 = k2
        · simp [eraseKV, hk, lookupKV, hk2, h]
        · simp [eraseKV, hk, lookupKV, hk2, ih]

theorem lookupKV_eraseKV_self {K V : Type} [DecidableEq K]
    {l : List (K × V)} {k : K} (h : (l.map Prod.fst).Nodup) :
    lookupKV (eraseKV l k) k = none := by
  induction l with
  | nil => simp [eraseKV, lookupKV]
  | cons p rest ih =>
    cases p with
    | mk k1 v1 =>
      simp only [List.map_cons, List.nodup_cons] at h
      by_cases hk : k1 = k
      · subst hk
        simp only [eraseKV, if_pos rfl]
        exact lookupKV_eq_none_of_not_mem_keys h.1
      · simp [eraseKV, hk, lookupKV, ih h.2]

theorem keys_modifyKV {K V : Type} [DecidableEq K]
    (l : List (K × V)) (k : K) (f : V → V) :
    (modifyKV l k f).map Prod.fst = l.map Prod.fst := by
  induction l with
  | nil => rfl
  | cons p rest ih =>
    cases p with
    | mk k1 v1 =>
      by_cases hk : k1 = k
      · simpa [modifyKV, hk] using ih
      · simpa [modifyKV, hk] using ih

theorem lookupKV_modifyKV {K V : Type} [DecidableEq K]
    (l : List (K × V)) (k k2 : K) (f : V → V) :
    lookupKV (modifyKV l k f) k2 =
      if k2 = k then (lookupKV l k).map f else lookupKV l k2 := by
  induction l with
  | nil => simp [modifyKV, lookupKV]
  | cons p rest ih =>
    cases p with
    | mk k1 v1 =>
      by_cases hk : k1 = k
      · subst hk
        by_cases hk2 : k2 = k1
        · subst hk2
          simp [modifyKV, lookupKV, ih]
        · have h3 : ¬ k1 = k2 := fun hh => hk2 hh.symm
          simp [modifyKV, lookupKV, h3, hk2, ih]
      · by_cases hk12 : k1 = k2
        · subst hk12
          simp [modifyKV, lookupKV, hk]
        · simp [modifyKV, lookupKV, hk, hk12, ih]

theorem removeFirst_sublist {α : Type} [DecidableEq α]
    (l : List α) (a : α) : (removeFirst l a).Sublist l := by
  induction l with
  | nil => simp [removeFirst]
  | cons x xs ih =>
    by_cases hx : x = a
    · rw [removeFirst, if_pos hx]
      exact List.sublist_cons_self x xs
    · rw [removeFirst, if_neg hx]
      exact ih.cons₂ x

theorem not_mem_removeFirst_of_nodup {α : Type} [DecidableEq α]
    {l : List α} {a : α} (h : l.Nodup) : a ∉ removeFirst l a := by
  induction l with
  | nil => simp [removeFirst]
  | cons x xs ih =>
    simp only [List.nodup_cons] at h
    by_cases hx : x = a
    · subst hx
      simpa [removeFirst] using h.1
    · intro hmem
      simp only [removeFirst, hx, if_false, List.mem_cons] at hmem
      rcases hmem with hmem | hmem
      · exact hx hmem.symm
      · exact ih h.2 hmem

/-! Lemmas about the secondary-index bucket operations. -/

theorem lookupKV_addToBucket_ne {K : Type} [DecidableEq K]
    (idx : List (K × List String)) (k j : K) (aid : String) (h : j ≠ k) :
    lookupKV (addToBucket idx k aid) j = lookupKV idx j := by
  unfold addToBucket
  cases h0 : lookupKV idx k with
  | none => exact lookupKV_setKV_ne _ _ _ _ h
  | some ids =>
    by_cases hmem : aid ∈ ids
    · simp [hmem]
    · simp only [hmem, if_false]
      exact lookupKV_setKV_ne _ _ _ _ h

theorem lookupKV_removeFromBucket_ne {K : Type} [DecidableEq K]
    (idx : List (K × List String)) (k j : K) (aid : String) (h : j ≠ k) :
    lookupKV (removeFromBucket idx k aid) j = lookupKV idx j := by
  unfold removeFromBucket
  cases h0 : lookupKV idx k with
  | none => rfl
  | some ids =>
    by_cases hmem : aid ∈ ids
    · simp only [hmem, if_true]
      exact lookupKV_setKV_ne _ _ _ _ h
    · simp [hmem]

theorem mem_bucket_addToBucket {K : Type} [DecidableEq K]
    {idx : List (K × List String)} {k j : K} {aid i : String} {ids : List String}
    (h : lookupKV (addToBucket idx k aid) j = some ids) (hi : i ∈ ids) :
    (∃ ids0, lookupKV idx j = some ids0 ∧ i ∈ ids0) ∨ (i = aid ∧ j = k) := by
  by_cases hjk : j = k
  · subst hjk
    unfold addToBucket at h
    cases h0 : lookupKV idx j with
    | none =>
      simp only [h0, lookupKV_setKV_self] at h
      cases h
      simp only [List.mem_singleton] at hi
      exact Or.inr ⟨hi, rfl⟩
    | some ids0 =>
      simp only [h0] at h
      by_cases hmem : aid ∈ ids0
      · rw [if_pos hmem] at h
        have hids : ids0 = ids := Option.some.inj (h0.symm.trans h)
        exact Or.inl ⟨ids0, rfl, by rw [hids]; exact hi⟩
      · rw [if_neg hmem, lookupKV_setKV_self] at h
        cases h
        rcases List.mem_append.mp hi with hin | hin
        · exact Or.inl ⟨ids0, rfl, hin⟩
        · simp only [List.mem_singleton] at hin
          exact Or.inr ⟨hin, rfl⟩
  · rw [lookupKV_addToBucket_ne _ _ _ _ hjk] at h
    exact Or.inl ⟨ids, h, hi⟩

theorem mem_bucket_removeFromBucket {K : Type} [DecidableEq K]
    {idx : List (K × List String)} {k j : K} {aid i : String} {ids : List String}
    (h : lookupKV (removeFromBucket idx k aid) j = some ids) (hi : i ∈ ids) :
    ∃ ids0, lookupKV idx j = some ids0 ∧ i ∈ ids0 := by
  by_cases hjk : j = k
  · subst hjk
    unfold removeFromBucket at h
    cases h0 : lookupKV idx j with
    | none =>
      simp only [h0] at h
      simp at h
    | some ids0 =>
      simp only [h0] at h
      by_cases hmem : aid ∈ ids0
      · rw [if_pos hmem, lookupKV_setKV_self] at h
        cases h
        exact ⟨ids0, rfl, (removeFirst_sublist ids0 aid).mem hi⟩
      · rw [if_neg hmem] at h
        have hids : ids0 = ids := Option.some.inj (h0.symm.trans h)
        exact ⟨ids0, rfl, by rw [hids]; exact hi⟩
  · rw [lookupKV_removeFromBucket_ne _ _ _ _ hjk] at h
    exact ⟨ids, h, hi⟩

theorem nodup_bucket_addToBucket {K : Type} [DecidableEq K]
    {idx : List (K × List String)} {k : K} {aid : String} {j : K} {ids : List String}
    (hpre : ∀ j2 ids2, lookupKV idx j2 = some ids2 → ids2.Nodup)
    (h : lookupKV (addToBucket idx k aid) j = some ids) : ids.Nodup := by
  by_cases hjk : j = k
  · subst hjk
    unfold addToBucket at h
    cases h0 : lookupKV idx j with
    | none =>
      simp only [h0, lookupKV_setKV_self] at h
      cases h
      simp
    | some ids0 =>
      simp only [h0] at h
      by_cases hmem : aid ∈ ids0
      · rw [if_pos hmem] at h
        exact hpre _ _ h
      · rw [if_neg hmem, lookupKV_setKV_self] at h
        cases h
        refine List.Nodup.append (hpre _ _ h0) (by simp) ?_
        intro a ha hb
        simp only [List.mem_singleton] at hb
        exact hmem (hb ▸ ha)
  · rw [lookupKV_addToBucket_ne _ _ _ _ hjk] at h
    exact hpre _ _ h

theorem nodup_bucket_removeFromBucket {K : Type} [DecidableEq K]
    {idx : List (K × List String)} {k : K} {aid : String} {j : K} {ids : List String}
    (hpre : ∀ j2 ids2, lookupKV idx j2 = some ids2 → ids2.Nodup)
    (h : lookupKV (removeFromBucket idx k aid) j = some ids) : ids.Nodup := by
  by_cases hjk : j = k
  · subst hjk
    unfold removeFromBucket at h
    cases h0 : lookupKV idx j with
    | none =>
      simp only [h0] at h
      simp at h
    | some ids0 =>
      simp only [h0] at h
      by_cases hmem : aid ∈ ids0
      · rw [if_pos hmem, lookupKV_setKV_self] at h
        cases h
        exact (hpre _ _ h0).sublist (removeFirst_sublist ids0 aid)
      · rw [if_neg hmem] at h
        exact hpre _ _ h
  · rw [lookupKV_removeFromBucket_ne _ _ _ _ hjk] at h
    exact hpre _ _ h

theorem not_mem_bucket_removeFromBucket_self {K : Type} [DecidableEq K]
    {idx : List (K × List String)} {k : K} {aid : String} {ids : List String}
    (hpre : ∀ j2 ids2, lookupKV idx j2 = some ids2 → ids2.Nodup)
    (h : lookupKV (removeFromBucket idx k aid) k = some ids) : aid ∉ ids := by
  unfold removeFromBucket at h
  cases h0 : lookupKV idx k with
  | none =>
    simp only [h0] at h
    simp at h
  | some ids0 =>
    simp only [h0] at h
    by_cases hmem : aid ∈ ids0
    · rw [if_pos hmem, lookupKV_setKV_self] at h
      cases h
      exact not_mem_removeFirst_of_nodup (hpre _ _ h0)
    · rw [if_neg hmem] at h
      have hids : ids0 = ids := Option.some.inj (h0.symm.trans h)
      rw [← hids]
      exact hmem

/-! Characterizations of the dependency-reference maintenance loops. -/

theorem keys_updateDepRefsList (sid : String) (styp : ArtifactType) :
    ∀ (deps : List ArtifactRef) (arts : List (String × Artifact)),
    (updateDepRefsList sid styp arts deps).map Prod.fst = arts.map Prod.fst := by
  intro deps
  induction deps with
  | nil =>
    intro arts
    rfl
  | cons dep rest ih =>
    intro arts
    cases h0 : lookupKV arts dep.artifact_id with
    | none =>
      have hstep : updateDepRefsList sid styp arts (dep :: rest) =
          updateDepRefsList sid styp arts rest := by
        simp only [updateDepRefsList, h0]
      rw [hstep, ih]
    | some T0 =>
      have hstep : updateDepRefsList sid styp arts (dep :: rest) =
          updateDepRefsList sid styp
            (modifyKV arts dep.artifact_id
              (fun d => { d with referenced_by := d.referenced_by ++ [mkRevRef sid styp dep] }))
            rest := by
        simp only [updateDepRefsList, h0]
      rw [hstep, ih, keys_modifyKV]

theorem keys_removeDepRefsList (sid : String) :
    ∀ (deps : List ArtifactRef) (arts : List (String × Artifact)),
    (removeDepRefsList sid arts deps).map Prod.fst = arts.map Prod.fst := by
  intro deps
  induction deps with
  | nil =>
    intro arts
    rfl
  | cons dep rest ih =>
    intro arts
    cases h0 : lookupKV arts dep.artifact_id with
    | none =>
      have hstep : removeDepRefsList sid arts (dep :: rest) =
          removeDepRefsList sid arts rest := by
        simp only [removeDepRefsList, h0]
      rw [hstep, ih]
    | some T0 =>
      have hstep : removeDepRefsList sid arts (dep :: rest) =
          removeDepRefsList sid
            (modifyKV arts dep.artifact_id
              (fun d => { d with referenced_by :=
                  d.referenced_by.filter (fun r => r.artifact_id != sid) }))
            rest := by
        simp only [removeDepRefsList, h0]
      rw [hstep, ih, keys_modifyKV]

theorem lookupKV_updateDepRefsList (sid : String) (styp : ArtifactType) :
    ∀ (deps : List ArtifactRef) (arts : List (String × Artifact)) (k : String),
    lookupKV (updateDepRefsList sid styp arts deps) k =
      (lookupKV arts k).map (fun T =>
        { T with referenced_by :=
            T.referenced_by ++
              (deps.filter (fun d => d.artifact_id == k)).map (mkRevRef sid styp) }) := by
  intro deps
  induction deps with
  | nil =>
    intro arts k
    have hnil : updateDepRefsList sid styp arts [] = arts := rfl
    rw [hnil]
    cases h : lookupKV arts k with
    | none => rfl
    | some T => simp
  | cons dep rest ih =>
    intro arts k
    cases h0 : lookupKV arts dep.artifact_id with
    | none =>
      have hstep : updateDepRefsList sid styp arts (dep :: rest) =
          updateDepRefsList sid styp arts rest := by
        simp only [updateDepRefsList, h0]
      rw [hstep, ih]
      cases h1 : lookupKV arts k with
      | none => rfl
      | some T =>
        have hne : (dep.artifact_id == k) = false := by
          refine beq_eq_false_iff_ne.mpr ?_
          intro hh
          rw [hh, h1] at h0
          exact Option.noConfusion h0
        simp [List.filter_cons, hne]
    | some T0 =>
      have hstep : updateDepRefsList sid styp arts (dep :: rest) =
          updateDepRefsList sid styp
            (modifyKV arts dep.artifact_id
              (fun d => { d with referenced_by := d.referenced_by ++ [mkRevRef sid styp dep] }))
            rest := by
        simp only [updateDepRefsList, h0]
      rw [hstep, ih, lookupKV_modifyKV]
      by_cases hk : k = dep.artifact_id
      · subst hk
        rw [if_pos rfl, h0]
        have hbeq : (dep.artifact_id == dep.artifact_id) = true := beq_self_eq_true _
        simp [List.filter_cons, hbeq, List.append_assoc]
      · rw [if_neg hk]
        cases h1 : lookupKV arts k with
        | none => rfl
        | some T =>
          have hne : (dep.artifact_id == k) = false :=
            beq_eq_false_iff_ne.mpr (fun hh => hk hh.symm)
          simp [List.filter_cons, hne]

theorem lookupKV_removeDepRefsList (sid : String) :
    ∀ (deps : List ArtifactRef) (arts : List (String × Artifact)) (k : String),
    lookupKV (removeDepRefsList sid arts deps) k =
      (lookupKV arts k).map (fun T =>
        if deps.any (fun d => d.artifact_id == k) then
          { T with referenced_by := T.referenced_by.filter (fun r => r.artifact_id != sid) }
        else T) := by
  intro deps
  induction deps with
  | nil =>
    intro arts k
    have hnil : removeDepRefsList sid arts [] = arts := rfl
    rw [hnil]
    cases h : lookupKV arts k with
    | none => rfl
    | some T => simp
  | cons dep rest ih =>
    intro arts k
    cases h0 : lookupKV arts dep.artifact_id with
    | none =>
      have hstep : removeDepRefsList sid arts (dep :: rest) =
          removeDepRefsList sid arts rest := by
        simp only [removeDepRefsList, h0]
      rw [hstep, ih]
      cases h1 : lookupKV arts k with
      | none => rfl
      | some T =>
        have hne : (dep.artifact_id == k) = false := by
          refine beq_eq_false_iff_ne.mpr ?_
          intro hh
          rw [hh, h1] at h0
          exact Option.noConfusion h0
        simp [List.any_cons, hne]
    | some T0 =>
      have hstep : removeDepRefsList sid arts (dep :: rest) =
          removeDepRefsList sid
            (modifyKV arts dep.artifact_id
              (fun d => { d with referenced_by :=
                  d.referenced_by.filter (fun r => r.artifact_id != sid) }))
            rest := by
        simp only [removeDepRefsList, h0]
      rw [hstep, ih, lookupKV_modifyKV]
      by_cases hk : k = dep.artifact_id
      · subst hk
        rw [if_pos rfl, h0]
        have hbeq : (dep.artifact_id == dep.artifact_id) = true := beq_self_eq_true _
        by_cases hr : rest.any (fun d => d.artifact_id == dep.artifact_id) = true
        · simp [List.any_cons, hbeq, hr, List.filter_filter]
        · simp [List.any_cons, hbeq, hr]
      · rw [if_neg hk]
        cases h1 : lookupKV arts k with
        | none => rfl
        | some T =>
          have hne : (dep.artifact_id == k) = false :=
            beq_eq_false_iff_ne.mpr (fun hh => hk hh.symm)
          simp [List.any_cons, hne]

/-! Components of the registry operations. -/

theorem register_collision_eq (reg : ArtifactRegistry) (r : ArtifactRegistration)
    (newId : String) (now : Nat) (h : (lookupKV reg.artifacts newId).isSome = true) :
    register_artifact reg r newId now =
      (.error ("Artifact with ID " ++ newId ++ " already exists"), reg) := by
  simp [register_artifact, regArtifact, h]

theorem register_ok_parts (reg : ArtifactRegistry) (r : ArtifactRegistration)
    (newId : String) (now : Nat) (h : lookupKV reg.artifacts newId = none) :
    (register_artifact reg r newId now).1 = .ok newId ∧
    (register_artifact reg r newId now).2.artifacts =
      updateDepRefsList newId r.type
        (setKV reg.artifacts newId (regArtifact r newId now)) r.dependencies ∧
    (register_artifact reg r newId now).2.artifacts_by_job =
      (match truthyStr r.job_id with
       | some j => addToBucket reg.artifacts_by_job j newId
       | none => reg.artifacts_by_job) ∧
    (register_artifact reg r newId now).2.artifacts_by_service =
      (match truthyStr r.service_id with
       | some sv => addToBucket reg.artifacts_by_service sv newId
       | none => reg.artifacts_by_service) ∧
    (register_artifact reg r newId now).2.artifacts_by_type =
      addToBucket reg.artifacts_by_type r.type newId := by
  refine ⟨?_, ?_, ?_, ?_, ?_⟩ <;>
    simp only [register_artifact, update_indexes, update_dependency_references, regArtifact, h] <;>
    try rfl
  all_goals cases truthyStr r.job_id <;> cases truthyStr r.service_id <;> rfl

theorem delete_not_found_eq (reg : ArtifactRegistry) (aid : String)
    (h : lookupKV reg.artifacts aid = none) :
    delete_artifact reg aid = (false, reg) := by
  simp [delete_artifact, h]

theorem delete_found_parts (reg : ArtifactRegistry) (aid : String) (a : Artifact)
    (h : lookupKV reg.artifacts aid = some a) :
    (delete_artifact reg aid).1 = true ∧
    (delete_artifact reg aid).2.artifacts =
      eraseKV (removeDepRefsList a.metadata.id reg.artifacts a.dependencies) aid ∧
    (delete_artifact reg aid).2.artifacts_by_job =
      (match truthyStr a.job_id with
       | some j => removeFromBucket reg.artifacts_by_job j a.metadata.id
       | none => reg.artifacts_by_job) ∧
    (delete_artifact reg aid).2.artifacts_by_service =
      (match truthyStr a.service_id with
       | some sv => removeFromBucket reg.artifacts_by_service sv a.metadata.id
       | none => reg.artifacts_by_service) ∧
    (delete_artifact reg aid).2.artifacts_by_type =
      removeFromBucket reg.artifacts_by_type a.metadata.type a.metadata.id := by
  refine ⟨?_, ?_, ?_, ?_, ?_⟩ <;>
    simp only [delete_artifact, remove_from_indexes, remove_dependency_references, h] <;>
    try rfl
  all_goals cases truthyStr a.job_id <;> cases truthyStr a.service_id <;> rfl

/-! Preservation of the registry invariant. -/

theorem regWF_empty : RegWF emptyRegistry := by
  refine ⟨?_, ?_, ?_, ?_, ?_, ?_, ?_, ?_, ?_⟩ <;>
    simp [emptyRegistry, lookupKV]

theorem regWF_register (reg : ArtifactRegistry) (r : ArtifactRegistration)
    (newId : String) (now : Nat) (hwf : RegWF reg) :
    RegWF (register_artifact reg r newId now).2 := by
  cases hcol : lookupKV reg.artifacts newId with
  | some a0 =>
    have heq := register_collision_eq reg r newId now (by rw [hcol]; rfl)
    rw [heq]
    exact hwf
  | none =>
    obtain ⟨hok, hart, hjob, hsvc, htyp⟩ := register_ok_parts reg r newId now hcol
    have hlook : ∀ k, lookupKV (register_artifact reg r newId now).2.artifacts k =
        (lookupKV (setKV reg.artifacts newId (regArtifact r newId now)) k).map
          (fun T => { T with referenced_by := T.referenced_by ++
              (r.dependencies.filter (fun d => d.artifact_id == k)).map (mkRevRef newId r.type) }) := by
      intro k
      rw [hart, lookupKV_updateDepRefsList]
    refine ⟨?_, ?_, ?_, ?_, ?_, ?_, ?_, ?_, ?_⟩
    · -- nodupKeys
      rw [hart, keys_updateDepRefsList, setKV_eq_append _ hcol, List.map_append]
      refine List.Nodup.append hwf.nodupKeys (by simp) ?_
      intro x hx hx2
      simp only [List.map_cons, List.map_nil, List.mem_singleton] at hx2
      subst hx2
      exact not_mem_keys_of_lookupKV_eq_none hcol hx
    · -- keysMatch
      intro k a hka
      rw [hlook k] at hka
      rcases Option.map_eq_some'.mp hka with ⟨T, hT, rfl⟩
      by_cases hk : k = newId
      · subst hk
        rw [lookupKV_setKV_self] at hT
        cases hT
        rfl
      · rw [lookupKV_setKV_ne _ _ _ _ hk] at hT
        exact hwf.keysMatch k T hT
    · -- refsLive
      intro k a hka r2 hr2
      rw [hlook k] at hka
      rcases Option.map_eq_some'.mp hka with ⟨T, hT, rfl⟩
      have hr2' : r2 ∈ T.referenced_by ++
          (r.dependencies.filter (fun d => d.artifact_id == k)).map (mkRevRef newId r.type) := hr2
      rcases List.mem_append.mp hr2' with hold | hnew
      · by_cases hk : k = newId
        · subst hk
          rw [lookupKV_setKV_self] at hT
          cases hT
          simp [regArtifact] at hold
        · rw [lookupKV_setKV_ne _ _ _ _ hk] at hT
          obtain ⟨b, hb, d, hd, hdid⟩ := hwf.refsLive k T hT r2 hold
          have hbne : r2.artifact_id ≠ newId := by
            intro hh
            rw [hh, hcol] at hb
            exact Option.noConfusion hb
          have hpost : lookupKV (register_artifact reg r newId now).2.artifacts r2.artifact_id =
              some { b with referenced_by := b.referenced_by ++
                (r.dependencies.filter (fun d2 => d2.artifact_id == r2.artifact_id)).map (mkRevRef newId r.type) } := by
            rw [hlook, lookupKV_setKV_ne _ _ _ _ hbne, hb]
            rfl
          exact ⟨_, hpost, d, hd, hdid⟩
      · rcases List.mem_map.mp hnew with ⟨d, hdf, rfl⟩
        rcases List.mem_filter.mp hdf with ⟨hdmem, hdbeq⟩
        have hpost : lookupKV (register_artifact reg r newId now).2.artifacts newId =
            some { (regArtifact r newId now) with referenced_by :=
              (regArtifact r newId now).referenced_by ++
              (r.dependencies.filter (fun d2 => d2.artifact_id == newId)).map (mkRevRef newId r.type) } := by
          rw [hlook, lookupKV_setKV_self]
          rfl
        exact ⟨_, hpost, d, hdmem, eq_of_beq hdbeq⟩
    · -- idxJob
      intro j ids hj i hi
      rw [hjob] at hj
      have holdcase : ∀ i2 ids0, lookupKV reg.artifacts_by_job j = some ids0 → i2 ∈ ids0 →
          ∃ a2, lookupKV (register_artifact reg r newId now).2.artifacts i2 = some a2 ∧
            truthyStr a2.job_id = some j := by
        intro i2 ids0 h0 hm
        obtain ⟨a2, ha2, hta⟩ := hwf.idxJob j ids0 h0 i2 hm
        have hne : i2 ≠ newId := by
          intro hh
          rw [hh, hcol] at ha2
          exact Option.noConfusion ha2
        have hpost : lookupKV (register_artifact reg r newId now).2.artifacts i2 =
            some { a2 with referenced_by := a2.referenced_by ++
              (r.dependencies.filter (fun d => d.artifact_id == i2)).map (mkRevRef newId r.type) } := by
          rw [hlook, lookupKV_setKV_ne _ _ _ _ hne, ha2]
          rfl
        exact ⟨_, hpost, hta⟩
      cases hjid : truthyStr r.job_id with
      | none =>
        simp only [hjid] at hj
        exact holdcase i ids hj hi
      | some j0 =>
        simp only [hjid] at hj
        rcases mem_bucket_addToBucket hj hi with ⟨ids0, h0, hm⟩ | ⟨hieq, hjeq⟩
        · exact holdcase i ids0 h0 hm
        · rw [hieq]
          rw [hjeq]
          have hpost : lookupKV (register_artifact reg r newId now).2.artifacts newId =
              some { (regArtifact r newId now) with referenced_by :=
                (regArtifact r newId now).referenced_by ++
                (r.dependencies.filter (fun d => d.artifact_id == newId)).map (mkRevRef newId r.type) } := by
            rw [hlook, lookupKV_setKV_self]
            rfl
          exact ⟨_, hpost, hjid⟩
    · -- idxService
      intro sv ids hs i hi
      rw [hsvc] at hs
      have holdcase : ∀ i2 ids0, lookupKV reg.artifacts_by_service sv = some ids0 → i2 ∈ ids0 →
          ∃ a2, lookupKV (register_artifact reg r newId now).2.artifacts i2 = some a2 ∧
            truthyStr a2.service_id = some sv := by
        intro i2 ids0 h0 hm
        obtain ⟨a2, ha2, hta⟩ := hwf.idxService sv ids0 h0 i2 hm
        have hne : i2 ≠ newId := by
          intro hh
          rw [hh, hcol] at ha2
          exact Option.noConfusion ha2
        have hpost : lookupKV (register_artifact reg r newId now).2.artifacts i2 =
            some { a2 with referenced_by := a2.referenced_by ++
              (r.dependencies.filter (fun d => d.artifact_id == i2)).map (mkRevRef newId r.type) } := by
          rw [hlook, lookupKV_setKV_ne _ _ _ _ hne, ha2]
          rfl
        exact ⟨_, hpost, hta⟩
      cases hsid : truthyStr r.service_id with
      | none =>
        simp only [hsid] at hs
        exact holdcase i ids hs hi
      | some sv0 =>
        simp only [hsid] at hs
        rcases mem_bucket_addToBucket hs hi with ⟨ids0, h0, hm⟩ | ⟨hieq, hseq⟩
        · exact holdcase i ids0 h0 hm
        · rw [hieq]
          rw [hseq]
          have hpost : lookupKV (register_artifact reg r newId now).2.artifacts newId =
              some { (regArtifact r newId now) with referenced_by :=
                (regArtifact r newId now).referenced_by ++
                (r.dependencies.filter (fun d => d.artifact_id == newId)).map (mkRevRef newId r.type) } := by
            rw [hlook, lookupKV_setKV_self]
            rfl
          exact ⟨_, hpost, hsid⟩
    · -- idxType
      intro ty ids ht i hi
      rw [htyp] at ht
      rcases mem_bucket_addToBucket ht hi with ⟨ids0, h0, hm⟩ | ⟨hieq, htyeq⟩
      · obtain ⟨a2, ha2, hta⟩ := hwf.idxType ty ids0 h0 i hm
        have hne : i ≠ newId := by
          intro hh
          rw [hh, hcol] at ha2
          exact Option.noConfusion ha2
        have hpost : lookupKV (register_artifact reg r newId now).2.artifacts i =
            some { a2 with referenced_by := a2.referenced_by ++
              (r.dependencies.filter (fun d => d.artifact_id == i)).map (mkRevRef newId r.type) } := by
          rw [hlook, lookupKV_setKV_ne _ _ _ _ hne, ha2]
          rfl
        exact ⟨_, hpost, hta⟩
      · rw [hieq]
        rw [htyeq]
        have hpost : lookupKV (register_artifact reg r newId now).2.artifacts newId =
            some { (regArtifact r newId now) with referenced_by :=
              (regArtifact r newId now).referenced_by ++
              (r.dependencies.filter (fun d => d.artifact_id == newId)).map (mkRevRef newId r.type) } := by
          rw [hlook, lookupKV_setKV_self]
          rfl
        exact ⟨_, hpost, rfl⟩
    · -- idxJobNodup
      intro j ids hj
      rw [hjob] at hj
      cases hjid : truthyStr r.job_id with
      | none =>
        simp only [hjid] at hj
        exact hwf.idxJobNodup j ids hj
      | some j0 =>
        simp only [hjid] at hj
        exact nodup_bucket_addToBucket hwf.idxJobNodup hj
    · -- idxServiceNodup
      intro sv ids hs
      rw [hsvc] at hs
      cases hsid : truthyStr r.service_id with
      | none =>
        simp only [hsid] at hs
        exact hwf.idxServiceNodup sv ids hs
      | some sv0 =>
        simp only [hsid] at hs
        exact nodup_bucket_addToBucket hwf.idxServiceNodup hs
    · -- idxTypeNodup
      intro ty ids ht
      rw [htyp] at ht
      exact nodup_bucket_addToBucket hwf.idxTypeNodup ht

theorem regWF_delete (reg : ArtifactRegistry) (aid : String) (hwf : RegWF reg) :
    RegWF (delete_artifact reg aid).2 := by
  cases hfind : lookupKV reg.artifacts aid with
  | none =>
    rw [delete_not_found_eq reg aid hfind]
    exact hwf
  | some a =>
    obtain ⟨hok, hart, hjob, hsvc, htyp⟩ := delete_found_parts reg aid a hfind
    have haid : a.metadata.id = aid := hwf.keysMatch aid a hfind
    have hkeys2 : ((removeDepRefsList a.metadata.id reg.artifacts a.dependencies).map
        Prod.fst).Nodup := by
      rw [keys_removeDepRefsList]
      exact hwf.nodupKeys
    have hlookSelf : lookupKV (delete_artifact reg aid).2.artifacts aid = none := by
      rw [hart]
      exact lookupKV_eraseKV_self hkeys2
    have hlook : ∀ k, k ≠ aid →
        lookupKV (delete_artifact reg aid).2.artifacts k =
          (lookupKV reg.artifacts k).map (fun T =>
            if a.dependencies.any (fun d => d.artifact_id == k) then
              { T with referenced_by :=
                  T.referenced_by.filter (fun r2 => r2.artifact_id != a.metadata.id) }
            else T) := by
      intro k hk
      rw [hart, lookupKV_eraseKV_ne _ _ _ hk, lookupKV_removeDepRefsList]
    refine ⟨?_, ?_, ?_, ?_, ?_, ?_, ?_, ?_, ?_⟩
    · -- nodupKeys
      rw [hart]
      have hsub := (eraseKV_sublist
        (removeDepRefsList a.metadata.id reg.artifacts a.dependencies) aid).map Prod.fst
      exact List.Nodup.sublist hsub hkeys2
    · -- keysMatch
      intro k b hkb
      by_cases hk : k = aid
      · subst hk
        rw [hlookSelf] at hkb
        exact Option.noConfusion hkb
      · rw [hlook k hk] at hkb
        rcases Option.map_eq_some'.mp hkb with ⟨T, hT, rfl⟩
        try dsimp only
        split
        · exact hwf.keysMatch k T hT
        · exact hwf.keysMatch k T hT
    · -- refsLive
      intro k b hkb r2 hr2
      by_cases hk : k = aid
      · subst hk
        rw [hlookSelf] at hkb
        exact Option.noConfusion hkb
      · rw [hlook k hk] at hkb
        rcases Option.map_eq_some'.mp hkb with ⟨T, hT, rfl⟩
        try dsimp only at hr2
        have hr2T : r2 ∈ T.referenced_by := by
          by_cases hc : a.dependencies.any (fun d2 => d2.artifact_id == k) = true
          · rw [if_pos hc] at hr2
            exact (List.mem_filter.mp hr2).1
          · rw [if_neg hc] at hr2
            exact hr2
        obtain ⟨b0, hb0, d, hd, hdid⟩ := hwf.refsLive k T hT r2 hr2T
        by_cases hraid : r2.artifact_id = aid
        · -- the reverse edge named the deleted artifact: it was filtered out
          have hb0a : b0 = a := by
            rw [hraid] at hb0
            exact Option.some.inj (hb0.symm.trans hfind)
          have hc : a.dependencies.any (fun d2 => d2.artifact_id == k) = true := by
            apply List.any_eq_true.mpr
            exact ⟨d, hb0a ▸ hd, by simp [hdid]⟩
          have hmem2 := (List.mem_filter.mp (by rw [if_pos hc] at hr2; exact hr2)).2
          rw [haid] at hmem2
          exact absurd hraid (bne_iff_ne.mp hmem2)
        · have hpost : lookupKV (delete_artifact reg aid).2.artifacts r2.artifact_id =
              some ((fun T0 =>
                if a.dependencies.any (fun d2 => d2.artifact_id == r2.artifact_id) then
                  { T0 with referenced_by :=
                      T0.referenced_by.filter (fun r3 => r3.artifact_id != a.metadata.id) }
                else T0) b0) := by
            rw [hlook _ hraid, hb0]
            rfl
          refine ⟨_, hpost, d, ?_, hdid⟩
          dsimp only
          split
          · exact hd
          · exact hd
    · -- idxJob
      intro j ids hj i hi
      rw [hjob] at hj
      have hmem_pre : ∃ ids0, lookupKV reg.artifacts_by_job j = some ids0 ∧ i ∈ ids0 := by
        cases hjid : truthyStr a.job_id with
        | none =>
          simp only [hjid] at hj
          exact ⟨ids, hj, hi⟩
        | some j0 =>
          simp only [hjid] at hj
          exact mem_bucket_removeFromBucket hj hi
      obtain ⟨ids0, h0, hm⟩ := hmem_pre
      obtain ⟨a2, ha2, hta⟩ := hwf.idxJob j ids0 h0 i hm
      have hine : i ≠ aid := by
        intro hh
        subst hh
        have ha2a : a2 = a := Option.some.inj (ha2.symm.trans hfind)
        have hjid2 : truthyStr a.job_id = some j := by
          rw [← ha2a]
          exact hta
        simp only [hjid2] at hj
        have hnot := not_mem_bucket_removeFromBucket_self hwf.idxJobNodup hj
        rw [haid] at hnot
        exact hnot hi
      have hpost : lookupKV (delete_artifact reg aid).2.artifacts i =
          some ((fun T =>
            if a.dependencies.any (fun d2 => d2.artifact_id == i) then
              { T with referenced_by :=
                  T.referenced_by.filter (fun r3 => r3.artifact_id != a.metadata.id) }
            else T) a2) := by
        rw [hlook i hine, ha2]
        rfl
      refine ⟨_, hpost, ?_⟩
      dsimp only
      split
      · exact hta
      · exact hta
    · -- idxService
      intro sv ids hs i hi
      rw [hsvc] at hs
      have hmem_pre : ∃ ids0, lookupKV reg.artifacts_by_service sv = some ids0 ∧ i ∈ ids0 := by
        cases hsid : truthyStr a.service_id with
        | none =>
          simp only [hsid] at hs
          exact ⟨ids, hs, hi⟩
        | some sv0 =>
          simp only [hsid] at hs
          exact mem_bucket_removeFromBucket hs hi
      obtain ⟨ids0, h0, hm⟩ := hmem_pre
      obtain ⟨a2, ha2, hta⟩ := hwf.idxService sv ids0 h0 i hm
      have hine : i ≠ aid := by
        intro hh
        subst hh
        have ha2a : a2 = a := Option.some.inj (ha2.symm.trans hfind)
        have hsid2 : truthyStr a.service_id = some sv := by
          rw [← ha2a]
          exact hta
        simp only [hsid2] at hs
        have hnot := not_mem_bucket_removeFromBucket_self hwf.idxServiceNodup hs
        rw [haid] at hnot
        exact hnot hi
      have hpost : lookupKV (delete_artifact reg aid).2.artifacts i =
          some ((fun T =>
            if a.dependencies.any (fun d2 => d2.artifact_id == i) then
              { T with referenced_by :=
                  T.referenced_by.filter (fun r3 => r3.artifact_id != a.metadata.id) }
            else T) a2) := by
        rw [hlook i hine, ha2]
        rfl
      refine ⟨_, hpost, ?_⟩
      dsimp only
      split
      · exact hta
      · exact hta
    · -- idxType
      intro ty ids ht i hi
      rw [htyp] at ht
      have hmem_pre : ∃ ids0, lookupKV reg.artifacts_by_type ty = some ids0 ∧ i ∈ ids0 :=
        mem_bucket_removeFromBucket ht hi
      obtain ⟨ids0, h0, hm⟩ := hmem_pre
      obtain ⟨a2, ha2, hta⟩ := hwf.idxType ty ids0 h0 i hm
      have hine : i ≠ aid := by
        intro hh
        subst hh
        have ha2a : a2 = a := Option.some.inj (ha2.symm.trans hfind)
        have hty2 : a.metadata.type = ty := by
          rw [← ha2a]
          exact hta
        rw [hty2] at ht
        have hnot := not_mem_bucket_removeFromBucket_self hwf.idxTypeNodup ht
        rw [haid] at hnot
        exact hnot hi
      have hpost : lookupKV (delete_artifact reg aid).2.artifacts i =
          some ((fun T =>
            if a.dependencies.any (fun d2 => d2.artifact_id == i) then
              { T with referenced_by :=
                  T.referenced_by.filter (fun r3 => r3.artifact_id != a.metadata.id) }
            else T) a2) := by
        rw [hlook i hine, ha2]
        rfl
      refine ⟨_, hpost, ?_⟩
      dsimp only
      split
      · exact hta
      · exact hta
    · -- idxJobNodup
      intro j ids hj
      rw [hjob] at hj
      cases hjid : truthyStr a.job_id with
      | none =>
        simp only [hjid] at hj
        exact hwf.idxJobNodup j ids hj
      | some j0 =>
        simp only [hjid] at hj
        exact nodup_bucket_removeFromBucket hwf.idxJobNodup hj
    · -- idxServiceNodup
      intro sv ids hs
      rw [hsvc] at hs
      cases hsid : truthyStr a.service_id with
      | none =>
        simp only [hsid] at hs
        exact hwf.idxServiceNodup sv ids hs
      | some sv0 =>
        simp only [hsid] at hs
        exact nodup_bucket_removeFromBucket hwf.idxServiceNodup hs
    · -- idxTypeNodup
      intro ty ids ht
      rw [htyp] at ht
      exact nodup_bucket_removeFromBucket hwf.idxTypeNodup ht

theorem regWF_applyRegOp (reg : ArtifactRegistry) (op : RegOp) (hwf : RegWF reg) :
    RegWF (applyRegOp reg op) := by
  cases op with
  | register r newId now => exact regWF_register reg r newId now hwf
  | delete aid => exact regWF_delete reg aid hwf

theorem regWF_foldl (ops : List RegOp) :
    ∀ reg, RegWF reg → RegWF (ops.foldl applyRegOp reg) := by
  induction ops with
  | nil =>
    intro reg h
    exact h
  | cons op rest ih =>
    intro reg h
    exact ih _ (regWF_applyRegOp reg op h)

/-- Every reachable registry state is well formed. -/
theorem regWF_of_reachable {reg : ArtifactRegistry} (h : ReachableReg reg) : RegWF reg := by
  obtain ⟨ops, rfl⟩ := h
  exact regWF_foldl ops emptyRegistry regWF_empty

theorem reachable_applyRegOp {reg : ArtifactRegistry} (h : ReachableReg reg) (op : RegOp) :
    ReachableReg (applyRegOp reg op) := by
  obtain ⟨ops, rfl⟩ := h
  refine ⟨ops ++ [op], ?_⟩
  rw [runRegOps, List.foldl_append]
  rfl

theorem reachable_delete {reg : ArtifactRegistry} (h : ReachableReg reg) (aid : String) :
    ReachableReg (delete_artifact reg aid).2 :=
  reachable_applyRegOp h (.delete aid)

theorem reachable_register {reg : ArtifactRegistry} (h : ReachableReg reg)
    (r : ArtifactRegistration) (newId : String) (now : Nat) :
    ReachableReg (register_artifact reg r newId now).2 :=
  reachable_applyRegOp h (.register r newId now)

/-! Invariants of the per-job execution transition system. -/

theorem cellInv_init (sub : JobSubmission) (newId : String) (now : Nat) :
    CellInv (initCell sub newId now) := by
  refine ⟨fun _ => rfl, ?_, ?_, ?_, ?_, ?_⟩ <;>
    intro h <;> simp [initCell, jobFromSubmission] at h

theorem cellInv_step {c c2 : JobCell} (hinv : CellInv c) (hstep : JobStep c c2) :
    CellInv c2 := by
  obtain ⟨h1, h2, h3, h4, h5, h6⟩ := hinv
  cases hstep with
  | startUnit t hph =>
    refine ⟨?_, fun _ => rfl, ?_, ?_, ?_, ?_⟩
    · intro h
      simp at h
    · intro h
      simp at h
    · intro h
      simp at h
    · intro h
      have h7 := h5 h
      rw [h1 hph] at h7
      simp at h7
    · intro h
      have h7 := h6 h
      rw [h1 hph] at h7
      simp at h7
  | serviceOk r t hph =>
    refine ⟨?_, ?_, ?_, fun _ => rfl, fun _ => rfl, ?_⟩
    · intro h
      simp at h
    · intro h
      simp at h
    · intro h
      simp at h
    · intro h
      have h7 := h6 h
      rw [h2 hph] at h7
      simp at h7
  | serviceFail e t hph =>
    refine ⟨?_, ?_, ?_, fun _ => rfl, ?_, fun _ => rfl⟩
    · intro h
      simp at h
    · intro h
      simp at h
    · intro h
      simp at h
    · intro h
      have h7 := h5 h
      rw [h2 hph] at h7
      simp at h7
  | cancelReq t hterm =>
    refine ⟨?_, ?_, fun _ => rfl, fun _ => rfl, ?_, ?_⟩
    · intro h
      exfalso
      revert h
      split <;> simp
    · intro h
      exfalso
      revert h
      split <;> simp
    · intro h
      have h7 := h5 h
      rw [h7] at hterm
      simp [isTerminal] at hterm
    · intro h
      have h7 := h6 h
      rw [h7] at hterm
      simp [isTerminal] at hterm
  | cancelHandler t hph =>
    refine ⟨?_, ?_, ?_, fun _ => rfl, ?_, ?_⟩
    · intro h
      simp at h
    · intro h
      simp at h
    · intro h
      simp at h
    · intro h
      have h7 := h5 h
      rw [h3 hph] at h7
      simp at h7
    · intro h
      have h7 := h6 h
      rw [h3 hph] at h7
      simp at h7

theorem cellInv_reaches {c0 c : JobCell} (h0 : CellInv c0) (h : ReachesCell c0 c) :
    CellInv c := by
  induction h with
  | refl => exact h0
  | tail hr hs ih => exact cellInv_step ih hs

theorem step_status_allowed {c c2 : JobCell} (hinv : CellInv c) (hstep : JobStep c c2) :
    c2.job.status = c.job.status ∨ allowedAmended c.job.status c2.job.status = true := by
  obtain ⟨h1, h2, h3, h4, h5, h6⟩ := hinv
  cases hstep with
  | startUnit t hph =>
    right
    rw [h1 hph]
    rfl
  | serviceOk r t hph =>
    right
    rw [h2 hph]
    rfl
  | serviceFail e t hph =>
    right
    rw [h2 hph]
    rfl
  | cancelReq t hterm =>
    right
    cases hst : c.job.status with
    | pending => rfl
    | running => rfl
    | completed =>
      rw [hst] at hterm
      simp [isTerminal] at hterm
    | failed =>
      rw [hst] at hterm
      simp [isTerminal] at hterm
    | cancelled =>
      rw [hst] at hterm
      simp [isTerminal] at hterm
  | cancelHandler t hph =>
    left
    exact (h3 hph).symm

theorem step_terminal_frozen {c c2 : JobCell} (hinv : CellInv c)
    (hterm : isTerminal c.job.status = true) (hstep : JobStep c c2) :
    c2.job.status = c.job.status := by
  obtain ⟨h1, h2, h3, h4, h5, h6⟩ := hinv
  cases hstep with
  | startUnit t hph =>
    rw [h1 hph] at hterm
    simp [isTerminal] at hterm
  | serviceOk r t hph =>
    rw [h2 hph] at hterm
    simp [isTerminal] at hterm
  | serviceFail e t hph =>
    rw [h2 hph] at hterm
    simp [isTerminal] at hterm
  | cancelReq t hterm2 =>
    rw [hterm] at hterm2
    exact Bool.noConfusion hterm2
  | cancelHandler t hph =>
    exact (h3 hph).symm

theorem cancel_job_terminal_eq (s : ServerState) (jid : String) (now : Nat) (job : Job)
    (hfind : lookupKV s.jobs jid = some job) (hterm : isTerminal job.status = true) :
    cancel_job s jid now = (false, s) := by
  simp [cancel_job, hfind, hterm]

/-- When every fresh id the uuid oracle supplies already exists, every
single artifact registration raises, is caught and logged, and the
registry comes out exactly unchanged. -/
theorem register_service_artifacts_all_collide (reg : ArtifactRegistry) (jobId : String) :
    ∀ (arts : List ArtifactDescriptor) (ids : List String) (now : Nat),
    (∀ i ∈ ids, (lookupKV reg.artifacts i).isSome = true) →
    register_service_artifacts reg jobId arts ids now = reg := by
  intro arts
  induction arts with
  | nil =>
    intro ids now h
    cases ids <;> rfl
  | cons d rest ih =>
    intro ids now h
    cases ids with
    | nil => rfl
    | cons i is =>
      have hcol := h i (by simp)
      have hstep : (register_artifact reg (descriptorToRegistration jobId d) i now).2 = reg := by
        rw [register_collision_eq reg _ i now hcol]
      simp only [register_service_artifacts, hstep]
      exact ih is now (fun x hx => h x (List.mem_cons_of_mem i hx))

/-! Claim theorems. -/

/-- C1: submitting a job whose type has no registered backend raises the
dispatch ValueError synchronously and creates no job record: the server
state is returned exactly as it was, so in particular the job count is
unchanged. -/
theorem C1_submit_unregistered_no_record (agents : List JobType) (s : ServerState)
    (sub : JobSubmission) (newId : String) (now : Nat)
    (h : agents.contains sub.type = false) :
    (submit_job agents s sub newId now).1 =
      .error ("No external service available for job type: " ++ jobTypeName sub.type) ∧
    (submit_job agents s sub newId now).2 = s ∧
    (submit_job agents s sub newId now).2.jobs.length = s.jobs.length := by
  have hch : can_handle_job agents (jobFromSubmission sub newId now) = false := h
  have hty : (jobFromSubmission sub newId now).type = sub.type := rfl
  refine ⟨?_, ?_, ?_⟩ <;> simp [submit_job, hch, hty]

/-- Witness for C1 at a concrete unregistered submission against a
non-empty job store. -/
theorem C1_witness :
    (submit_job [JobType.ml_experiment] stateW1 subW1 "j1" 5).1 =
      .error ("No external service available for job type: " ++ jobTypeName subW1.type) ∧
    (submit_job [JobType.ml_experiment] stateW1 subW1 "j1" 5).2 = stateW1 ∧
    (submit_job [JobType.ml_experiment] stateW1 subW1 "j1" 5).2.jobs.length =
      stateW1.jobs.length :=
  C1_submit_unregistered_no_record [JobType.ml_experiment] stateW1 subW1 "j1" 5 (by decide)

/-- C2 counterexample: cancel_job on a job that is still Pending (its
task never ran — the repository's own test_cancel_job does exactly this)
is a reachable step that transitions Pending→Cancelled directly, which
the claimed path Pending→Running→{terminal} does not allow. -/
theorem C2_counterexample :
    ReachesCell cellCex cellCex ∧
    JobStep cellCex cellCexAfter ∧
    cellCex.job.status = .pending ∧
    cellCexAfter.job.status = .cancelled ∧
    cellCexAfter.job.status ≠ cellCex.job.status ∧
    allowedClaimed cellCex.job.status cellCexAfter.job.status = false := by
  refine ⟨ReachesCell.refl, ?_, rfl, rfl, by decide, rfl⟩
  exact JobStep.cancelReq cellCex 1 (by decide)

/-- C2 (amended): every transition of a submitted job either leaves the
status unchanged or follows Pending→Running, Running→{Completed, Failed,
Cancelled}, or the direct Pending→Cancelled taken when cancel_job
arrives before the task first runs; once a terminal state is reached the
status never changes; and cancel_job on an already-terminal job returns
false and leaves the whole server state — hence every field of the
record — unchanged. -/
theorem C2_amended_lifecycle (sub : JobSubmission) (newId : String) (now : Nat) :
    (∀ c c2, ReachesCell (initCell sub newId now) c → JobStep c c2 →
      c2.job.status = c.job.status ∨ allowedAmended c.job.status c2.job.status = true) ∧
    (∀ c c2, ReachesCell (initCell sub newId now) c → isTerminal c.job.status = true →
      JobStep c c2 → c2.job.status = c.job.status) ∧
    (∀ (s : ServerState) (jid : String) (t : Nat) (job : Job),
      lookupKV s.jobs jid = some job → isTerminal job.status = true →
      cancel_job s jid t = (false, s)) := by
  refine ⟨?_, ?_, ?_⟩
  · intro c c2 hr hs
    exact step_status_allowed (cellInv_reaches (cellInv_init sub newId now) hr) hs
  · intro c c2 hr ht hs
    exact step_terminal_frozen (cellInv_reaches (cellInv_init sub newId now) hr) ht hs
  · intro s jid t job hfind hterm
    exact cancel_job_terminal_eq s jid t job hfind hterm

/-- Witness for C2 at concrete inputs: the start step out of the fresh
cell is an allowed Pending→Running transition, and cancel_job on a
stored Completed job returns false with the state unchanged. -/
theorem C2_witness :
    (cellStartW.job.status = cellCex.job.status ∨
      allowedAmended cellCex.job.status cellStartW.job.status = true) ∧
    cancel_job stateTermW "jt" 9 = (false, stateTermW) := by
  refine ⟨?_, ?_⟩
  · exact (C2_amended_lifecycle subCex "job-1" 0).1 cellCex cellStartW ReachesCell.refl
      (JobStep.startUnit cellCex 3 rfl)
  · exact (C2_amended_lifecycle subCex "job-1" 0).2.2 stateTermW "jt" 9 jobTermW rfl (by decide)

/-- C3: in every reachable state of a submitted job, result and error are
never both present; result is present only when the status is Completed
and error only when it is Failed. -/
theorem C3_result_error_exclusive (sub : JobSubmission) (newId : String) (now : Nat)
    (c : JobCell) (h : ReachesCell (initCell sub newId now) c) :
    ¬(c.job.result.isSome = true ∧ c.job.error.isSome = true) ∧
    (c.job.result.isSome = true → c.job.status = .completed) ∧
    (c.job.error.isSome = true → c.job.status = .failed) := by
  obtain ⟨h1, h2, h3, h4, h5, h6⟩ := cellInv_reaches (cellInv_init sub newId now) h
  refine ⟨?_, h5, h6⟩
  rintro ⟨hres, herr⟩
  exact JobStatus.noConfusion ((h5 hres).symm.trans (h6 herr))

/-- Witness for C3 at the freshly submitted cell. -/
theorem C3_witness :
    ¬(cellCex.job.result.isSome = true ∧ cellCex.job.error.isSome = true) ∧
    (cellCex.job.result.isSome = true → cellCex.job.status = .completed) ∧
    (cellCex.job.error.isSome = true → cellCex.job.status = .failed) :=
  C3_result_error_exclusive subCex "job-1" 0 cellCex ReachesCell.refl

/-- C4 counterexample: a 201 response is in the 2xx range, yet the code
(which tests response.status == 200) fails the job instead of treating
it as a success. -/
theorem C4_counterexample :
    200 ≤ 201 ∧ 201 < 300 ∧
    (finalize_after_service jobW4
      (execute_job_via_service "http://svc" (.response 201 bodyW "created")) 7).status =
        .failed ∧
    (finalize_after_service jobW4
      (execute_job_via_service "http://svc" (.response 201 bodyW "created")) 7).result =
        none ∧
    (finalize_after_service jobW4
      (execute_job_via_service "http://svc" (.response 201 bodyW "created")) 7).status ≠
        .completed := by
  exact ⟨by decide, by decide, rfl, rfl, by decide⟩

/-- C4 (amended): exactly a 200 response is a success whose json body
becomes the job's result; any non-200 status or transport error
transitions the job to Failed with the textual detail captured in its
error field. -/
theorem C4_amended_remote_execution (url : String) (st : Nat) (body : ResultBody)
    (text e : String) (job : Job) (t : Nat) :
    (execute_job_via_service url (.response 200 body text) = .ok body) ∧
    (st ≠ 200 →
      finalize_after_service job (execute_job_via_service url (.response st body text)) t =
        { job with status := .failed, completed_at := some t,
                   error := some ("Service returned status " ++ toString st ++ ": " ++ text) }) ∧
    (finalize_after_service job (execute_job_via_service url (.clientError e)) t =
      { job with status := .failed, completed_at := some t,
                 error := some ("Failed to communicate with service " ++ url ++ ": " ++ e) }) ∧
    (finalize_after_service job (.ok body) t =
      { job with status := .completed, completed_at := some t, result := some body }) := by
  refine ⟨rfl, ?_, rfl, rfl⟩
  intro hne
  simp [execute_job_via_service, finalize_after_service, hne]

/-- Witness for C4: a 200 response succeeds with the body as result, and
a concrete 500 response fails the job with the captured detail. -/
theorem C4_witness :
    (execute_job_via_service "http://svc" (.response 200 bodyW "ok") = .ok bodyW) ∧
    finalize_after_service jobW4
        (execute_job_via_service "http://svc" (.response 500 bodyW "boom")) 7 =
      { jobW4 with status := .failed, completed_at := some 7,
                   error := some ("Service returned status " ++ toString 500 ++ ": " ++ "boom") } :=
  ⟨(C4_amended_remote_execution "http://svc" 500 bodyW "ok" "x" jobW4 7).1,
   (C4_amended_remote_execution "http://svc" 500 bodyW "boom" "x" jobW4 7).2.1 (by decide)⟩

/-- C5: the completion block always finalizes the job as Completed with
the service result, no matter what the artifact registrations do; in
particular when every declared artifact fails to register (every fresh
id collides), the job is still Completed with its result and the registry
is simply left unchanged. -/
theorem C5_artifact_failures_never_unseat_completion (job : Job) (r : ResultBody) (t : Nat) :
    (∀ (reg : ArtifactRegistry) (ids : List String),
      (complete_job_with_result job reg r t ids).1 =
        { job with status := .completed, completed_at := some t, result := some r }) ∧
    (∀ (reg : ArtifactRegistry) (ids : List String),
      (∀ i ∈ ids, (lookupKV reg.artifacts i).isSome = true) →
      (complete_job_with_result job reg r t ids).1.status = .completed ∧
      (complete_job_with_result job reg r t ids).1.result = some r ∧
      (complete_job_with_result job reg r t ids).2 = reg) := by
  refine ⟨fun reg ids => rfl, fun reg ids hfail => ⟨rfl, rfl, ?_⟩⟩
  exact register_service_artifacts_all_collide reg job.id r.artifacts ids t hfail

/-- Witness for C5: completing against a registry where the only fresh id
collides keeps the job Completed with its result and the registry
unchanged. -/
theorem C5_witness :
    (complete_job_with_result jobW4 regDup resultW5 9 ["dup"]).1 =
      { jobW4 with status := .completed, completed_at := some 9, result := some resultW5 } ∧
    (complete_job_with_result jobW4 regDup resultW5 9 ["dup"]).2 = regDup := by
  refine ⟨(C5_artifact_failures_never_unseat_completion jobW4 resultW5 9).1 regDup ["dup"], ?_⟩
  exact ((C5_artifact_failures_never_unseat_completion jobW4 resultW5 9).2 regDup ["dup"]
    (by decide)).2.2

/-- C6 counterexample: register b with a dependency on the absent id A,
then register A itself: both artifacts are stored and b declares a live
forward edge naming A, yet A's referenced_by list is empty — the
reverse-edge mirror diverges from the set of live forward edges because
registration never backfills previously dangling edges. -/
theorem C6_counterexample :
    (lookupKV regC6.artifacts "A").isSome = true ∧
    (lookupKV regC6.artifacts "b").isSome = true ∧
    (lookupKV regC6.artifacts "b").map (fun b => b.dependencies.map (fun d => d.artifact_id)) =
      some ["A"] ∧
    (lookupKV regC6.artifacts "A").map (fun a => a.referenced_by) = some [] ∧
    get_artifact_references regC6 "A" = [] := by
  exact ⟨rfl, rfl, rfl, rfl, rfl⟩

/-- C6 (amended): in every reachable registry state the reverse-edge
lists are sound — every referenced_by entry names a stored artifact that
declares the matching forward edge — though not complete (an edge whose
target is registered only later is never backfilled, as the
counterexample shows); registering B with a dependency on a currently
stored A makes getReferences(A) include the new artifact; and deleting an
artifact removes its id from every reverse-edge list. -/
theorem C6_amended_reverse_edges (reg : ArtifactRegistry) (hreach : ReachableReg reg) :
    (∀ k a, lookupKV reg.artifacts k = some a → ∀ r2 ∈ a.referenced_by,
      ∃ b, lookupKV reg.artifacts r2.artifact_id = some b ∧
        ∃ d ∈ b.dependencies, d.artifact_id = k) ∧
    (∀ (r : ArtifactRegistration) (newId : String) (now : Nat),
      (register_artifact reg r newId now).1 = .ok newId →
      ∀ dep ∈ r.dependencies, (lookupKV reg.artifacts dep.artifact_id).isSome = true →
        ∃ x ∈ get_artifact_references (register_artifact reg r newId now).2 dep.artifact_id,
          x.metadata.id = newId) ∧
    (∀ aid, (delete_artifact reg aid).1 = true →
      ∀ k a2, lookupKV (delete_artifact reg aid).2.artifacts k = some a2 →
        ∀ r2 ∈ a2.referenced_by, r2.artifact_id ≠ aid) := by
  refine ⟨(regWF_of_reachable hreach).refsLive, ?_, ?_⟩
  · intro r newId now hok dep hdepmem hsome
    cases hcol : lookupKV reg.artifacts newId with
    | some a0 =>
      have heq := register_collision_eq reg r newId now (by rw [hcol]; rfl)
      rw [heq] at hok
      exact Except.noConfusion hok
    | none =>
      obtain ⟨_, hart, _, _, _⟩ := register_ok_parts reg r newId now hcol
      have hlook : ∀ k, lookupKV (register_artifact reg r newId now).2.artifacts k =
          (lookupKV (setKV reg.artifacts newId (regArtifact r newId now)) k).map
            (fun T => { T with referenced_by := T.referenced_by ++
                (r.dependencies.filter (fun d => d.artifact_id == k)).map (mkRevRef newId r.type) }) := by
        intro k
        rw [hart, lookupKV_updateDepRefsList]
      cases hA : lookupKV reg.artifacts dep.artifact_id with
      | none =>
        rw [hA] at hsome
        exact Bool.noConfusion hsome
      | some A =>
        have hne : dep.artifact_id ≠ newId := by
          intro hh
          rw [hh, hcol] at hA
          exact Option.noConfusion hA
        have hpostA : lookupKV (register_artifact reg r newId now).2.artifacts dep.artifact_id =
            some { A with referenced_by := A.referenced_by ++
              (r.dependencies.filter (fun d => d.artifact_id == dep.artifact_id)).map (mkRevRef newId r.type) } := by
          rw [hlook, lookupKV_setKV_ne _ _ _ _ hne, hA]
          rfl
        have hpostB : lookupKV (register_artifact reg r newId now).2.artifacts newId =
            some { (regArtifact r newId now) with referenced_by :=
              (regArtifact r newId now).referenced_by ++
              (r.dependencies.filter (fun d => d.artifact_id == newId)).map (mkRevRef newId r.type) } := by
          rw [hlook, lookupKV_setKV_self]
          rfl
        have hmem : ({ (regArtifact r newId now) with referenced_by :=
              (regArtifact r newId now).referenced_by ++
              (r.dependencies.filter (fun d => d.artifact_id == newId)).map (mkRevRef newId r.type) } : Artifact) ∈
            get_artifact_references (register_artifact reg r newId now).2 dep.artifact_id := by
          simp only [get_artifact_references, get_artifact, hpostA]
          apply List.mem_filterMap.mpr
          exact ⟨mkRevRef newId r.type dep,
            List.mem_append.mpr (Or.inr (List.mem_map.mpr
              ⟨dep, List.mem_filter.mpr ⟨hdepmem, by simp⟩, rfl⟩)),
            hpostB⟩
        exact ⟨_, hmem, rfl⟩
  · intro aid hok k a2 hka2 r2 hr2 hcontra
    have hwp : RegWF (delete_artifact reg aid).2 :=
      regWF_of_reachable (reachable_delete hreach aid)
    obtain ⟨b, hb, _⟩ := hwp.refsLive k a2 hka2 r2 hr2
    rw [hcontra] at hb
    cases hfind : lookupKV reg.artifacts aid with
    | none =>
      rw [delete_not_found_eq reg aid hfind] at hok
      exact Bool.noConfusion hok
    | some a =>
      obtain ⟨_, hart, _, _, _⟩ := delete_found_parts reg aid a hfind
      have hself : lookupKV (delete_artifact reg aid).2.artifacts aid = none := by
        rw [hart]
        apply lookupKV_eraseKV_self
        rw [keys_removeDepRefsList]
        exact (regWF_of_reachable hreach).nodupKeys
      rw [hself] at hb
      exact Option.noConfusion hb

/-- Witness for C6: registering B with a dependency on the stored A makes
getReferences(A) include the new artifact. -/
theorem C6_witness :
    ∃ x ∈ get_artifact_references (register_artifact regW6 regSubB "b" 1).2 "A",
      x.metadata.id = "b" :=
  (C6_amended_reverse_edges regW6 ⟨[RegOp.register regSubA "A" 0], rfl⟩).2.1
    regSubB "b" 1 rfl depOnA (by decide) rfl

/-- C7 counterexample: with a provided limit of 0 — falsy in Python, so
the slice is skipped — list_jobs returns every record instead of at most
zero. -/
theorem C7_counterexample :
    list_jobs stateC7 none (some 0) = [jobB7, jobA7] ∧
    ¬((list_jobs stateC7 none (some 0)).length ≤ 0) := by
  exact ⟨rfl, by decide⟩

/-- C7 (amended): list_jobs returns the filtered records sorted by
creation time newest first; the status filter is applied before the
limit; a provided positive limit n is respected exactly (at most n
records — the first n of the sorted filtered sequence); a provided limit
of 0 is falsy and therefore behaves like no limit, returning every
matching record. -/
theorem C7_amended_list_jobs (s : ServerState) (filt : Option JobStatus) (lim : Option Nat) :
    List.Sorted createdGe (list_jobs s filt lim) ∧
    (∀ st, filt = some st → ∀ j ∈ list_jobs s filt lim, j.status = st) ∧
    (∀ n, lim = some n → 0 < n →
      (list_jobs s filt lim).length ≤ n ∧
      list_jobs s filt lim = (sortJobsDesc (jobsFiltered s filt)).take n) ∧
    (lim = some 0 → list_jobs s filt lim = sortJobsDesc (jobsFiltered s filt)) ∧
    (lim = none → list_jobs s filt lim = sortJobsDesc (jobsFiltered s filt)) := by
  have hs : List.Sorted createdGe (sortJobsDesc (jobsFiltered s filt)) :=
    List.sorted_insertionSort createdGe _
  refine ⟨?_, ?_, ?_, ?_, ?_⟩
  · cases lim with
    | none => exact hs
    | some n =>
      by_cases hn : n = 0
      · subst hn
        simpa [list_jobs] using hs
      · have heq : list_jobs s filt (some n) = (sortJobsDesc (jobsFiltered s filt)).take n := by
          simp [list_jobs, hn]
        rw [heq]
        exact List.Pairwise.sublist (List.take_sublist n _) hs
  · intro st hfilt j hj
    subst hfilt
    have hmem : j ∈ jobsFiltered s (some st) := by
      have hj2 : j ∈ sortJobsDesc (jobsFiltered s (some st)) := by
        cases lim with
        | none => exact hj
        | some n =>
          by_cases hn : n = 0
          · subst hn
            simpa [list_jobs] using hj
          · have heq : list_jobs s (some st) (some n) =
                (sortJobsDesc (jobsFiltered s (some st))).take n := by
              simp [list_jobs, hn]
            rw [heq] at hj
            exact List.take_subset n _ hj
      simpa [sortJobsDesc] using hj2
    exact eq_of_beq (List.mem_filter.mp hmem).2
  · intro n hlim hpos
    subst hlim
    have hn : n ≠ 0 := Nat.pos_iff_ne_zero.mp hpos
    have heq : list_jobs s filt (some n) = (sortJobsDesc (jobsFiltered s filt)).take n := by
      simp [list_jobs, hn]
    refine ⟨?_, heq⟩
    rw [heq]
    exact List.length_take_le n _
  · intro h0
    subst h0
    simp [list_jobs]
  · intro hnone
    subst hnone
    rfl

/-- Witness for C7 with a concrete two-job store and limit 1. -/
theorem C7_witness :
    (list_jobs stateC7 none (some 1)).length ≤ 1 ∧
    list_jobs stateC7 none (some 1) = (sortJobsDesc (jobsFiltered stateC7 none)).take 1 ∧
    List.Sorted createdGe (list_jobs stateC7 none (some 1)) :=
  ⟨((C7_amended_list_jobs stateC7 none (some 1)).2.2.1 1 rfl (by decide)).1,
   ((C7_amended_list_jobs stateC7 none (some 1)).2.2.1 1 rfl (by decide)).2,
   (C7_amended_list_jobs stateC7 none (some 1)).1⟩

/-- C8: delete_artifact returns true exactly when the id is stored, and
returns the state untouched when it is not; deleting a stored artifact
removes it from the primary store, leaves it in no bucket of any of the
three secondary indices, removes its id from every reverse-edge list,
and leaves every surviving artifact's forward dependency edges in place
(the dangling-edge policy). -/
theorem C8_delete_artifact (reg : ArtifactRegistry) (hreach : ReachableReg reg) (aid : String) :
    ((delete_artifact reg aid).1 = true ↔ (lookupKV reg.artifacts aid).isSome = true) ∧
    (lookupKV reg.artifacts aid = none → delete_artifact reg aid = (false, reg)) ∧
    ((lookupKV reg.artifacts aid).isSome = true →
      lookupKV (delete_artifact reg aid).2.artifacts aid = none ∧
      (∀ j ids, lookupKV (delete_artifact reg aid).2.artifacts_by_job j = some ids →
        aid ∉ ids) ∧
      (∀ sv ids, lookupKV (delete_artifact reg aid).2.artifacts_by_service sv = some ids →
        aid ∉ ids) ∧
      (∀ ty ids, lookupKV (delete_artifact reg aid).2.artifacts_by_type ty = some ids →
        aid ∉ ids) ∧
      (∀ k a2, lookupKV (delete_artifact reg aid).2.artifacts k = some a2 →
        ∀ r2 ∈ a2.referenced_by, r2.artifact_id ≠ aid) ∧
      (∀ k b, k ≠ aid → lookupKV reg.artifacts k = some b →
        ∃ c, lookupKV (delete_artifact reg aid).2.artifacts k = some c ∧
          c.dependencies = b.dependencies)) := by
  have hwf := regWF_of_reachable hreach
  refine ⟨?_, fun hnone => delete_not_found_eq reg aid hnone, ?_⟩
  · cases hfind : lookupKV reg.artifacts aid with
    | none =>
      rw [delete_not_found_eq reg aid hfind]
      simp
    | some a =>
      obtain ⟨hok, _, _, _, _⟩ := delete_found_parts reg aid a hfind
      simp [hok]
  · intro hsome
    cases hfind : lookupKV reg.artifacts aid with
    | none =>
      rw [hfind] at hsome
      exact Bool.noConfusion hsome
    | some a =>
      obtain ⟨hok, hart, _, _, _⟩ := delete_found_parts reg aid a hfind
      have hwp : RegWF (delete_artifact reg aid).2 :=
        regWF_of_reachable (reachable_delete hreach aid)
      have hself : lookupKV (delete_artifact reg aid).2.artifacts aid = none := by
        rw [hart]
        apply lookupKV_eraseKV_self
        rw [keys_removeDepRefsList]
        exact hwf.nodupKeys
      have hlook : ∀ k, k ≠ aid →
          lookupKV (delete_artifact reg aid).2.artifacts k =
            (lookupKV reg.artifacts k).map (fun T =>
              if a.dependencies.any (fun d => d.artifact_id == k) then
                { T with referenced_by :=
                    T.referenced_by.filter (fun r2 => r2.artifact_id != a.metadata.id) }
              else T) := by
        intro k hk
        rw [hart, lookupKV_eraseKV_ne _ _ _ hk, lookupKV_removeDepRefsList]
      refine ⟨hself, ?_, ?_, ?_, ?_, ?_⟩
      · intro j ids hj hmem
        obtain ⟨a2, ha2, _⟩ := hwp.idxJob j ids hj aid hmem
        rw [hself] at ha2
        exact Option.noConfusion ha2
      · intro sv ids hsv hmem
        obtain ⟨a2, ha2, _⟩ := hwp.idxService sv ids hsv aid hmem
        rw [hself] at ha2
        exact Option.noConfusion ha2
      · intro ty ids ht hmem
        obtain ⟨a2, ha2, _⟩ := hwp.idxType ty ids ht aid hmem
        rw [hself] at ha2
        exact Option.noConfusion ha2
      · intro k a2 hka2 r2 hr2 hcontra
        obtain ⟨b, hb, _⟩ := hwp.refsLive k a2 hka2 r2 hr2
        rw [hcontra, hself] at hb
        exact Option.noConfusion hb
      · intro k b hk hkb
        have hpost : lookupKV (delete_artifact reg aid).2.artifacts k =
            some ((fun T =>
              if a.dependencies.any (fun d => d.artifact_id == k) then
                { T with referenced_by :=
                    T.referenced_by.filter (fun r2 => r2.artifact_id != a.metadata.id) }
              else T) b) := by
          rw [hlook k hk, hkb]
          rfl
        refine ⟨_, hpost, ?_⟩
        try dsimp only
        split
        · rfl
        · rfl

/-- Witness for C8: deleting the stored B from the concrete registry
removes it, and the surviving A keeps its (empty) dependency list. -/
theorem C8_witness :
    ((delete_artifact regW8 "B").1 = true ↔ (lookupKV regW8.artifacts "B").isSome = true) ∧
    lookupKV (delete_artifact regW8 "B").2.artifacts "B" = none ∧
    (∃ c, lookupKV (delete_artifact regW8 "B").2.artifacts "A" = some c ∧
      c.dependencies = artA8.dependencies) := by
  have h := C8_delete_artifact regW8
    ⟨[RegOp.register regSubA8 "A" 0, RegOp.register regSubB8 "B" 1], rfl⟩ "B"
  refine ⟨h.1, (h.2.2 rfl).1, ?_⟩
  exact (h.2.2 rfl).2.2.2.2.2 "A" artA8 (by decide) rfl

/-- C9 counterexample: after A is deleted, get_artifact_references on
A's id does not report not-found — it returns the ordinary empty list (a
success, exactly what a live artifact with no referencers produces),
diverging from the spec-modelled view that errors not-found; B meanwhile
still lists the dangling id among its declared dependencies and
get_artifact_dependencies resolves it to nothing. -/
theorem C9_counterexample :
    lookupKV regC9.artifacts "A" = none ∧
    get_artifact_references regC9 "A" = [] ∧
    getReferencesSpecView regC9 "A" = .error "not-found" ∧
    (lookupKV regC9.artifacts "b").map (fun b => b.dependencies.map (fun d => d.artifact_id)) =
      some ["A"] ∧
    get_artifact_dependencies regC9 "b" = [] := by
  exact ⟨rfl, rfl, rfl, rfl, rfl⟩

/-- C9 (amended): after a successful delete of an artifact, the deleted
id is gone from the store and get_artifact_references on it returns the
empty list (the registry has no error channel there — not-found is
signalled only by get_artifact); every surviving artifact keeps its
declared dependency list, including the now-dangling edge, and
get_artifact_dependencies still succeeds, resolving that edge to nothing
rather than erroring. -/
theorem C9_amended_dangling (reg : ArtifactRegistry) (hreach : ReachableReg reg)
    (aid : String) (hok : (delete_artifact reg aid).1 = true) :
    lookupKV (delete_artifact reg aid).2.artifacts aid = none ∧
    get_artifact_references (delete_artifact reg aid).2 aid = [] ∧
    (∀ k b, k ≠ aid → lookupKV reg.artifacts k = some b →
      ∃ c, lookupKV (delete_artifact reg aid).2.artifacts k = some c ∧
        c.dependencies = b.dependencies) ∧
    (∀ k c, lookupKV (delete_artifact reg aid).2.artifacts k = some c →
      ∀ x ∈ get_artifact_dependencies (delete_artifact reg aid).2 k,
        x.metadata.id ≠ aid) := by
  have hwf := regWF_of_reachable hreach
  have hwp : RegWF (delete_artifact reg aid).2 :=
    regWF_of_reachable (reachable_delete hreach aid)
  cases hfind : lookupKV reg.artifacts aid with
  | none =>
    rw [delete_not_found_eq reg aid hfind] at hok
    exact Bool.noConfusion hok
  | some a =>
    obtain ⟨_, hart, _, _, _⟩ := delete_found_parts reg aid a hfind
    have hself : lookupKV (delete_artifact reg aid).2.artifacts aid = none := by
      rw [hart]
      apply lookupKV_eraseKV_self
      rw [keys_removeDepRefsList]
      exact hwf.nodupKeys
    have hlook : ∀ k, k ≠ aid →
        lookupKV (delete_artifact reg aid).2.artifacts k =
          (lookupKV reg.artifacts k).map (fun T =>
            if a.dependencies.any (fun d => d.artifact_id == k) then
              { T with referenced_by :=
                  T.referenced_by.filter (fun r2 => r2.artifact_id != a.metadata.id) }
            else T) := by
      intro k hk
      rw [hart, lookupKV_eraseKV_ne _ _ _ hk, lookupKV_removeDepRefsList]
    refine ⟨hself, ?_, ?_, ?_⟩
    · simp only [get_artifact_references, get_artifact, hself]
    · intro k b hk hkb
      have hpost : lookupKV (delete_artifact reg aid).2.artifacts k =
          some ((fun T =>
            if a.dependencies.any (fun d => d.artifact_id == k) then
              { T with referenced_by :=
                  T.referenced_by.filter (fun r2 => r2.artifact_id != a.metadata.id) }
            else T) b) := by
        rw [hlook k hk, hkb]
        rfl
      refine ⟨_, hpost, ?_⟩
      try dsimp only
      split
      · rfl
      · rfl
    · intro k c hkc x hx hcontra
      simp only [get_artifact_dependencies, get_artifact, hkc] at hx
      rcases List.mem_filterMap.mp hx with ⟨d, hd, hlx⟩
      have hxid := hwp.keysMatch d.artifact_id x hlx
      rw [hxid.symm.trans hcontra] at hlx
      rw [hself] at hlx
      exact Option.noConfusion hlx

/-- Witness for C9: deleting A from the concrete registry leaves its id
unknown, its references call returning empty, and b's dangling
dependency resolving to nothing. -/
theorem C9_witness :
    lookupKV (delete_artifact regW9 "A").2.artifacts "A" = none ∧
    get_artifact_references (delete_artifact regW9 "A").2 "A" = [] := by
  have h := C9_amended_dangling regW9
    ⟨[RegOp.register regSubA "A" 0, RegOp.register regSubB "b" 1], rfl⟩ "A" rfl
  exact ⟨h.1, h.2.1⟩

/-- C10: register_artifact on a generated id that already exists raises
the collision ValueError before any mutation: the error is returned and
the entire registry — primary store, all three secondary indices and
every reverse-edge list within them — is exactly the input state. -/
theorem C10_register_collision_no_mutation (reg : ArtifactRegistry)
    (r : ArtifactRegistration) (newId : String) (now : Nat)
    (h : (lookupKV reg.artifacts newId).isSome = true) :
    register_artifact reg r newId now =
      (.error ("Artifact with ID " ++ newId ++ " already exists"), reg) ∧
    (register_artifact reg r newId now).2 = reg ∧
    (register_artifact reg r newId now).2.artifacts = reg.artifacts ∧
    (register_artifact reg r newId now).2.artifacts_by_job = reg.artifacts_by_job ∧
    (register_artifact reg r newId now).2.artifacts_by_service = reg.artifacts_by_service ∧
    (register_artifact reg r newId now).2.artifacts_by_type = reg.artifacts_by_type := by
  have heq := register_collision_eq reg r newId now h
  rw [heq]
  exact ⟨rfl, rfl, rfl, rfl, rfl, rfl⟩

/-- Witness for C10 at a concrete colliding id. -/
theorem C10_witness :
    register_artifact regDup regSub10 "dup" 3 =
      (.error ("Artifact with ID " ++ "dup" ++ " already exists"), regDup) ∧
    (register_artifact regDup regSub10 "dup" 3).2.artifacts = regDup.artifacts :=
  ⟨(C10_register_collision_no_mutation regDup regSub10 "dup" 3 rfl).1,
   (C10_register_collision_no_mutation regDup regSub10 "dup" 3 rfl).2.2.1⟩

end MCPCore
